import Mathlib

/-!
Verification of the astrological transit/aspect computation engine
(`src/services/astro_engine.py`).

The Python source is shallowly embedded: longitudes, orbs and time
coordinates become exact rationals (`ℚ`), Python `int()` truncation and
float `%` become `pyInt`/`pyMod`, Python lists become `List`, dictionaries
become association lists preserving insertion order, and the external
Swiss Ephemeris calls (`swe.calc_ut`, `swe.houses`) become explicit oracle
parameters.  `while` loops are embedded as structurally recursive
functions whose fuel is computed from the loop bounds so that, on the
domains considered, the fuel can never run out before the loop guard
fails.
-/

set_option maxRecDepth 8000

namespace AstroEngine

/-- Truncation of a rational towards zero, the behaviour of Python `int()`
on a float. -/
def pyInt (q : ℚ) : ℤ := Int.tdiv q.num q.den

/-- Python float modulus: `a % b = a - b * floor (a / b)` (sign of the
divisor; for `b > 0` the result lies in `[0, b)`). -/
def pyMod (a b : ℚ) : ℚ := a - b * (⌊a / b⌋ : ℤ)

/-- Ceiling of a rational, clamped to a natural number; used to compute
loop fuel from rational loop bounds. -/
def ratCeilNat (q : ℚ) : ℕ := (⌈q⌉ : ℤ).toNat

/-- Source constant `ZODIAC_SIGNS`: the twelve sign names with their
symbols, in ecliptic order. -/
def ZODIAC_SIGNS : List (String × String) :=
  [("Овен", "♈"), ("Телец", "♉"), ("Близнецы", "♊"),
   ("Рак", "♋"), ("Лев", "♌"), ("Дева", "♍"),
   ("Весы", "♎"), ("Скорпион", "♏"), ("Стрелец", "♐"),
   ("Козерог", "♑"), ("Водолей", "♒"), ("Рыбы", "♓")]

/-! ## House placement (`get_planet_house`) -/

/-- The membership test `get_planet_house` applies to the (0-based) house
`i`: the right-open arc from cusp `i` to cusp `i+1`, wrapping through 0°
when the next cusp is numerically smaller. -/
def houseArcContains (cusps : List ℚ) (i : ℕ) (longitude : ℚ) : Prop :=
  if cusps.getD ((i + 1) % 12) 0 < cusps.getD i 0 then
    longitude ≥ cusps.getD i 0 ∨ longitude < cusps.getD ((i + 1) % 12) 0
  else
    cusps.getD i 0 ≤ longitude ∧ longitude < cusps.getD ((i + 1) % 12) 0

instance (cusps : List ℚ) (i : ℕ) (longitude : ℚ) :
    Decidable (houseArcContains cusps i longitude) := by
  unfold houseArcContains
  exact inferInstance

/-- The `for i in range(12)` scan of `get_planet_house`, fuel-indexed. -/
def ghLoop (longitude : ℚ) (cusps : List ℚ) : ℕ → ℕ → ℕ
  | 0, _ => 1
  | fuel + 1, i =>
    if houseArcContains cusps i longitude then i + 1
    else ghLoop longitude cusps fuel (i + 1)

/-- Source `get_planet_house`: the 1-based number of the first house arc
containing the longitude, defaulting to house 1. -/
def get_planet_house (longitude : ℚ) (cusps : List ℚ) : ℕ :=
  ghLoop longitude cusps 12 0

theorem ghLoop_bounds (longitude : ℚ) (cusps : List ℚ) :
    ∀ fuel i, fuel + i ≤ 12 →
      1 ≤ ghLoop longitude cusps fuel i ∧ ghLoop longitude cusps fuel i ≤ 12 := by
  intro fuel
  induction fuel with
  | zero => intro i _; simp [ghLoop]
  | succ n ih =>
    intro i h
    rw [ghLoop]
    split
    · omega
    · exact ih (i + 1) (by omega)

theorem ghLoop_default (longitude : ℚ) (cusps : List ℚ)
    (h : ∀ j, j < 12 → ¬ houseArcContains cusps j longitude) :
    ∀ fuel i, fuel + i ≤ 12 → ghLoop longitude cusps fuel i = 1 := by
  intro fuel
  induction fuel with
  | zero => intro i _; simp [ghLoop]
  | succ n ih =>
    intro i hle
    rw [ghLoop]
    split
    · exact absurd (by assumption) (h i (by omega))
    · exact ih (i + 1) (by omega)

/-- C10: house placement is total and never leaves the valid range: for
every longitude and every cusp list the result lies in `[1, 12]`, and when
no cusp arc (including the wrap-through-0° arcs) contains the longitude
the function falls back to house 1. -/
theorem get_planet_house_total (longitude : ℚ) (cusps : List ℚ) :
    (1 ≤ get_planet_house longitude cusps ∧ get_planet_house longitude cusps ≤ 12) ∧
      ((∀ j, j < 12 → ¬ houseArcContains cusps j longitude) →
        get_planet_house longitude cusps = 1) :=
  ⟨ghLoop_bounds longitude cusps 12 0 (by omega),
   fun h => ghLoop_default longitude cusps h 12 0 (by omega)⟩

/-- Witness for C10 at a concrete input: with all twelve cusps equal to 7°
no arc contains longitude 5°, so the fallback house 1 is returned. -/
theorem get_planet_house_total_witness :
    (1 ≤ get_planet_house 5 (List.replicate 12 7) ∧
      get_planet_house 5 (List.replicate 12 7) ≤ 12) ∧
    get_planet_house 5 (List.replicate 12 7) = 1 :=
  ⟨(get_planet_house_total 5 (List.replicate 12 7)).1,
   (get_planet_house_total 5 (List.replicate 12 7)).2 (by decide)⟩

/-! ## House arc length (`get_planet_ruled_houses`, size computation) -/

/-- The house-size computation of `get_planet_ruled_houses`: when the end
cusp is numerically smaller than the start cusp the arc wraps through 0°
and its length is `(360 - start) + end`. -/
def house_size (cusp_start cusp_end : ℚ) : ℚ :=
  if cusp_end < cusp_start then (360 - cusp_start) + cusp_end
  else cusp_end - cusp_start

/-- C7: house arcs crossing 0° are measured as positive wrap-around
length: a house starting at 350° whose next cusp is 20° has size 30°, and
in general a wrapping pair (`end < start`) has size `(360 - start) + end`,
which is never negative for cusps in `[0, 360)`. -/
theorem house_size_wraps_positive :
    (∀ cusps : List ℚ, cusps.getD 3 0 = 350 → cusps.getD 4 0 = 20 →
      house_size (cusps.getD 3 0) (cusps.getD 4 0) = 30) ∧
    (∀ s e : ℚ, 0 ≤ s → s < 360 → 0 ≤ e → e < 360 →
      (e < s → house_size s e = (360 - s) + e) ∧ 0 ≤ house_size s e) := by
  constructor
  · intro cusps h3 h4
    rw [h3, h4]
    norm_num [house_size]
  · intro s e hs0 hs1 he0 he1
    constructor
    · intro hlt
      simp [house_size, hlt]
    · unfold house_size
      split <;> linarith

/-- Witness for C7 at the concrete scenario of the specification: the
house-4 arc 350°→20° has size 30. -/
theorem house_size_wraps_positive_witness :
    house_size ([0, 30, 60, (350 : ℚ), 20, 90, 120, 150, 180, 210, 240, 270].getD 3 0)
        ([0, 30, 60, (350 : ℚ), 20, 90, 120, 150, 180, 210, 240, 270].getD 4 0) = 30 ∧
      house_size 350 20 = (360 - 350) + 20 ∧ (0 : ℚ) ≤ house_size 350 20 :=
  ⟨house_size_wraps_positive.1 _ (by norm_num) (by norm_num),
   (house_size_wraps_positive.2 350 20 (by norm_num) (by norm_num) (by norm_num)
      (by norm_num)).1 (by norm_num),
   (house_size_wraps_positive.2 350 20 (by norm_num) (by norm_num) (by norm_num)
      (by norm_num)).2⟩

/-! ## Rulership tables and `get_planet_ruled_houses` -/

/-- Source constant `SIGN_RULERS_RETRO`: the secondary (retrograde)
ruler of each sign that has one. -/
def SIGN_RULERS_RETRO : List (String × String) :=
  [("Овен", "Марс"), ("Скорпион", "Плутон"), ("Стрелец", "Нептун"),
   ("Козерог", "Уран"), ("Водолей", "Сатурн"), ("Рыбы", "Юпитер")]

/-- Source constant `PLANET_SIGNS`: the sign(s) each planet rules. -/
def PLANET_SIGNS : List (String × List String) :=
  [("Солнце", ["Лев"]), ("Луна", ["Рак"]),
   ("Меркурий", ["Близнецы", "Дева"]), ("Венера", ["Телец", "Весы"]),
   ("Марс", ["Скорпион"]), ("Юпитер", ["Стрелец"]),
   ("Сатурн", ["Козерог"]), ("Уран", ["Водолей"]),
   ("Нептун", ["Рыбы"]), ("Плутон", ["Овен"])]

/-- Source constant `PLANET_SIGNS_RETRO`: the extra sign a retrograde
planet co-rules. -/
def PLANET_SIGNS_RETRO : List (String × String) :=
  [("Марс", "Овен"), ("Юпитер", "Рыбы"), ("Сатурн", "Водолей"),
   ("Уран", "Козерог"), ("Нептун", "Стрелец"), ("Плутон", "Скорпион")]

/-- The sign name at an ecliptic position: `ZODIAC_SIGNS[int(x / 30)][0]`.
`none` models a Python `IndexError` (index ≥ 12); a negative index would
wrap in Python but cannot occur on the domains considered here, so it is
also mapped to `none`. -/
def signNameAt (x : ℚ) : Option String :=
  if pyInt (x / 30) < 0 then none
  else (ZODIAC_SIGNS.get? (pyInt (x / 30)).toNat).map Prod.fst

/-- Whether `sign` makes `planet_name` a retrograde co-ruler: the source
test `sign in SIGN_RULERS_RETRO and SIGN_RULERS_RETRO[sign] == planet_name
and is_retrograde`. -/
def retroRulerHit (sign planet_name : String) (is_retrograde : Bool) : Bool :=
  match SIGN_RULERS_RETRO.lookup sign with
  | some r => (r == planet_name) && is_retrograde
  | none => false

/-- The inner `while remaining > 0.1` walk of `get_planet_ruled_houses`
over the sign segments of one house.  `acc` records whether the house has
been added to the ruled set so far; `none` models non-termination or an
out-of-range sign index (neither occurs on the domains considered, see
`ruledWalk_total`). -/
def ruledWalk (signs : List String) (planet_name : String) (is_retrograde : Bool)
    (house_sz : ℚ) : ℕ → ℚ → ℚ → Bool → Option Bool
  | 0, _, remaining, acc => if remaining > 1 / 10 then none else some acc
  | fuel + 1, current_pos, remaining, acc =>
    if remaining > 1 / 10 then
      let pos := pyMod current_pos 360
      match signNameAt pos with
      | none => none
      | some sign =>
        let deg_to_end := 30 - pyMod pos 30
        let deg_in_house := min deg_to_end remaining
        let qualifies :=
          deg_in_house ≥ 299 / 10 ∨ deg_in_house > house_sz / 2 ∨ deg_in_house > 27 / 2
        let acc' :=
          if qualifies then
            acc || signs.contains sign || retroRulerHit sign planet_name is_retrograde
          else acc
        ruledWalk signs planet_name is_retrograde house_sz fuel
          (pos + deg_in_house) (remaining - deg_in_house) acc'
    else some acc

/-- One `house_num` iteration of `get_planet_ruled_houses`: whether the
house is ruled.  Rule 1 (sign on the cusp), the retrograde co-rulership of
the cusp sign, then the walk over the contained sign segments. -/
def houseRuled (signs : List String) (planet_name : String) (is_retrograde : Bool)
    (cusps : List ℚ) (house_num : ℕ) : Option Bool :=
  let cusp_start := cusps.getD (house_num - 1) 0
  let cusp_end := cusps.getD (house_num % 12) 0
  let hsz := house_size cusp_start cusp_end
  match signNameAt cusp_start with
  | none => none
  | some cusp_sign =>
    let deg_in_cusp_sign := 30 - pyMod cusp_start 30
    if signs.contains cusp_sign then some true
    else if retroRulerHit cusp_sign planet_name is_retrograde then some true
    else
      let remaining := hsz - deg_in_cusp_sign
      ruledWalk signs planet_name is_retrograde hsz (ratCeilNat (remaining / 30) + 1)
        (cusp_start + deg_in_cusp_sign) remaining false

/-- The `for house_num in range(1, 13)` loop of `get_planet_ruled_houses`,
collecting the ruled houses in ascending order (the source accumulates a
set and returns `sorted(...)`, which is the same list). -/
def gprhLoop (signs : List String) (planet_name : String) (is_retrograde : Bool)
    (cusps : List ℚ) : ℕ → ℕ → Option (List ℕ)
  | 0, _ => some []
  | fuel + 1, house_num =>
    match houseRuled signs planet_name is_retrograde cusps house_num with
    | none => none
    | some b =>
      match gprhLoop signs planet_name is_retrograde cusps fuel (house_num + 1) with
      | none => none
      | some rest => some (if b then house_num :: rest else rest)

/-- The `signs` list computed at the top of `get_planet_ruled_houses`:
the planet's own signs, extended by its retrograde co-ruled sign when the
planet is retrograde. -/
def planetSigns (planet_name : String) (is_retrograde : Bool) : List String :=
  let signs0 := (PLANET_SIGNS.lookup planet_name).getD []
  if is_retrograde then
    match PLANET_SIGNS_RETRO.lookup planet_name with
    | some extra => if signs0.contains extra then signs0 else signs0 ++ [extra]
    | none => signs0
  else signs0

/-- Source `get_planet_ruled_houses`.  The `retro_planets` parameter is
accepted and unused, exactly as in the source body. -/
def get_planet_ruled_houses (planet_name : String) (cusps : List ℚ)
    (is_retrograde : Bool) (_retro_planets : List String) : Option (List ℕ) :=
  if planet_name = "Лилит" then some [8]
  else if planet_name = "Северный узел" then some []
  else gprhLoop (planetSigns planet_name is_retrograde) planet_name is_retrograde cusps 12 1

/-! ### Totality of rulership assignment (C3) -/

theorem pyMod_nonneg (a b : ℚ) (hb : 0 < b) : 0 ≤ pyMod a b := by
  have h := Int.floor_le (a / b)
  have h2 : b * (⌊a / b⌋ : ℚ) ≤ b * (a / b) := by
    exact mul_le_mul_of_nonneg_left h (le_of_lt hb)
  have h3 : b * (a / b) = a := by field_simp
  unfold pyMod
  nlinarith

theorem pyMod_lt (a b : ℚ) (hb : 0 < b) : pyMod a b < b := by
  have h := Int.lt_floor_add_one (a / b)
  have h2 : b * (a / b) < b * ((⌊a / b⌋ : ℚ) + 1) :=
    mul_lt_mul_of_pos_left h hb
  have h3 : b * (a / b) = a := by field_simp
  unfold pyMod
  nlinarith

theorem pyMod_int_mul (b : ℚ) (k : ℤ) (hb : b ≠ 0) : pyMod (b * k) b = 0 := by
  unfold pyMod
  rw [mul_comm b (k : ℚ), mul_div_assoc, div_self hb, mul_one, Int.floor_intCast]
  ring

theorem le_ratCeilNat (q : ℚ) : q ≤ (ratCeilNat q : ℚ) := by
  unfold ratCeilNat
  rcases le_or_lt 0 ⌈q⌉ with h | h
  · calc q ≤ (⌈q⌉ : ℚ) := Int.le_ceil q
      _ = ((⌈q⌉.toNat : ℤ) : ℚ) := by rw [Int.toNat_of_nonneg h]
      _ = _ := by norm_cast
  · have hq : q ≤ 0 := by
      by_contra hq
      push_neg at hq
      have := Int.ceil_pos.mpr hq
      omega
    calc q ≤ 0 := hq
      _ ≤ _ := by positivity

theorem pyInt_eq_floor (q : ℚ) (h : 0 ≤ q) : pyInt q = ⌊q⌋ := by
  unfold pyInt
  rw [Int.tdiv_eq_ediv (Rat.num_nonneg.mpr h) (by positivity), Rat.floor_def]

theorem signNameAt_isSome (x : ℚ) (h0 : 0 ≤ x) (h1 : x < 360) :
    ∃ s, signNameAt x = some s := by
  have htd : pyInt (x / 30) = ⌊x / 30⌋ := pyInt_eq_floor _ (by positivity)
  have hlb : 0 ≤ ⌊x / 30⌋ := Int.floor_nonneg.mpr (by positivity)
  have hub : ⌊x / 30⌋ < 12 := by
    refine Int.floor_lt.mpr ?_
    rw [div_lt_iff₀ (by norm_num : (0 : ℚ) < 30)]
    push_cast
    linarith
  have hnat : (pyInt (x / 30)).toNat < ZODIAC_SIGNS.length := by
    rw [htd]
    simp only [ZODIAC_SIGNS, List.length]
    omega
  unfold signNameAt
  rw [if_neg (by rw [htd]; omega), List.get?_eq_get hnat]
  exact ⟨_, rfl⟩

theorem ruledWalk_total (signs : List String) (planet_name : String) (is_retrograde : Bool)
    (house_sz : ℚ) :
    ∀ (fuel : ℕ) (pos remaining : ℚ) (acc : Bool),
      ((∃ k : ℤ, pos = 30 * k) ∨ remaining ≤ 1 / 10) → remaining ≤ 30 * fuel →
      ∃ b, ruledWalk signs planet_name is_retrograde house_sz fuel pos remaining acc = some b := by
  intro fuel
  induction fuel with
  | zero =>
    intro pos remaining acc _ hrem
    refine ⟨acc, ?_⟩
    rw [ruledWalk, if_neg (by push_cast at hrem; linarith)]
  | succ n ih =>
    intro pos remaining acc hk hrem
    by_cases hg : remaining > 1 / 10
    · have hmul : ∃ k : ℤ, pos = 30 * k := by
        rcases hk with h | h
        · exact h
        · linarith
      obtain ⟨k, hkeq⟩ := hmul
      have h0 : (0 : ℚ) ≤ pyMod pos 360 := pyMod_nonneg _ _ (by norm_num)
      have h1 : pyMod pos 360 < 360 := pyMod_lt _ _ (by norm_num)
      obtain ⟨s, hs⟩ := signNameAt_isSome (pyMod pos 360) h0 h1
      have hk2 : ∃ k2 : ℤ, pyMod pos 360 = 30 * k2 := by
        refine ⟨k - 12 * ⌊pos / 360⌋, ?_⟩
        unfold pyMod
        rw [hkeq]
        push_cast
        ring
      obtain ⟨k2, hk2eq⟩ := hk2
      have hmod : pyMod (pyMod pos 360) 30 = 0 := by
        rw [hk2eq]
        exact pyMod_int_mul 30 k2 (by norm_num)
      rw [ruledWalk, if_pos hg]
      simp only [hs, hmod]
      rcases le_or_lt remaining 30 with hle | hlt
      · have hmin : min (30 - (0 : ℚ)) remaining = remaining := by
          rw [min_eq_right (by linarith)]
        rw [hmin]
        refine ih _ _ _ (Or.inr (by linarith)) ?_
        ring_nf
        positivity
      · have hmin : min (30 - (0 : ℚ)) remaining = 30 := by
          rw [min_eq_left (by linarith)]
          norm_num
        rw [hmin]
        refine ih _ _ _ (Or.inl ⟨k2 + 1, by rw [hk2eq]; push_cast; ring⟩) ?_
        push_cast at hrem ⊢
        linarith
    · exact ⟨acc, by rw [ruledWalk, if_neg hg]⟩

theorem houseRuled_total (signs : List String) (planet_name : String)
    (is_retrograde : Bool) (cusps : List ℚ) (house_num : ℕ)
    (hc0 : 0 ≤ cusps.getD (house_num - 1) 0) (hc1 : cusps.getD (house_num - 1) 0 < 360) :
    ∃ b, houseRuled signs planet_name is_retrograde cusps house_num = some b := by
  obtain ⟨s, hs⟩ := signNameAt_isSome _ hc0 hc1
  unfold houseRuled
  simp only [hs]
  split
  · exact ⟨true, rfl⟩
  · split
    · exact ⟨true, rfl⟩
    · refine ruledWalk_total _ _ _ _ _ _ _ _ (Or.inl ?_) ?_
      · refine ⟨⌊cusps.getD (house_num - 1) 0 / 30⌋ + 1, ?_⟩
        unfold pyMod
        push_cast
        ring
      · set r := house_size (cusps.getD (house_num - 1) 0) (cusps.getD (house_num % 12) 0) -
          (30 - pyMod (cusps.getD (house_num - 1) 0) 30) with hr
        have h := le_ratCeilNat (r / 30)
        have h30 : (0 : ℚ) < 30 := by norm_num
        have : r ≤ 30 * (ratCeilNat (r / 30) : ℚ) := by
          rw [div_le_iff₀ h30] at h
          linarith
        push_cast
        linarith

theorem gprhLoop_total (signs : List String) (planet_name : String)
    (is_retrograde : Bool) (cusps : List ℚ) :
    ∀ (fuel start : ℕ),
      (∀ hn, start ≤ hn → hn < start + fuel →
        ∃ b, houseRuled signs planet_name is_retrograde cusps hn = some b) →
      ∃ l, gprhLoop signs planet_name is_retrograde cusps fuel start = some l ∧
        (∀ x ∈ l, start ≤ x ∧ x < start + fuel) ∧ l.Sorted (· < ·) := by
  intro fuel
  induction fuel with
  | zero =>
    intro start _
    exact ⟨[], rfl, by simp, List.sorted_nil⟩
  | succ n ih =>
    intro start h
    obtain ⟨b, hb⟩ := h start (le_refl _) (by omega)
    obtain ⟨rest, hrest, hmem, hsort⟩ :=
      ih (start + 1) (fun hn h1 h2 => h hn (by omega) (by omega))
    refine ⟨if b then start :: rest else rest, ?_, ?_, ?_⟩
    · rw [gprhLoop, hb, hrest]
    · intro x hx
      by_cases hbb : b
      · simp only [hbb, if_true, List.mem_cons] at hx
        rcases hx with rfl | hx
        · omega
        · have := hmem x hx
          omega
      · simp only [hbb, if_false] at hx
        have := hmem x hx
        omega
    · by_cases hbb : b
      · simp only [hbb, if_true]
        refine List.sorted_cons.mpr ⟨fun y hy => ?_, hsort⟩
        have := hmem y hy
        omega
      · simpa [hbb] using hsort

/-- C3 (amended): rulership assignment is total — for every body name and
every cusp set of 12 longitudes in `[0, 360)`, `get_planet_ruled_houses`
returns (without raising) a sorted set of house numbers in `[1, 12]`;
Lilith always returns the designated house 8 and the lunar node always
returns the empty set.  (The set can also be empty for ordinary bodies on
degenerate cusp sets, see the counterexample.) -/
theorem get_planet_ruled_houses_total (planet_name : String) (cusps : List ℚ)
    (is_retrograde : Bool) (retro_planets : List String)
    (hlen : cusps.length = 12) (hrange : ∀ c ∈ cusps, 0 ≤ c ∧ c < 360) :
    ∃ l, get_planet_ruled_houses planet_name cusps is_retrograde retro_planets = some l ∧
      l.Sorted (· < ·) ∧ (∀ x ∈ l, 1 ≤ x ∧ x ≤ 12) ∧
      (planet_name = "Лилит" → l = [8]) ∧
      (planet_name = "Северный узел" → l = []) := by
  unfold get_planet_ruled_houses
  by_cases hL : planet_name = "Лилит"
  · refine ⟨[8], ?_, ?_, ?_, fun _ => rfl, fun hN => absurd (hL ▸ hN) (by decide)⟩
    · rw [if_pos hL]
    · simp
    · simp
  · rw [if_neg hL]
    by_cases hN : planet_name = "Северный узел"
    · refine ⟨[], ?_, List.sorted_nil, by simp, fun hL2 => absurd hL2 hL, fun _ => rfl⟩
      rw [if_pos hN]
    · rw [if_neg hN]
      have htotal : ∀ hn, 1 ≤ hn → hn < 1 + 12 →
          ∃ b, houseRuled (planetSigns planet_name is_retrograde)
            planet_name is_retrograde cusps hn = some b := by
        intro hn h1 h2
        have hidx : hn - 1 < cusps.length := by omega
        have hmem : cusps.getD (hn - 1) 0 ∈ cusps := by
          rw [List.getD_eq_getElem?_getD, List.getElem?_eq_getElem hidx]
          simp only [Option.getD_some]
          exact List.getElem_mem hidx
        obtain ⟨hc0, hc1⟩ := hrange _ hmem
        exact houseRuled_total _ _ _ _ _ hc0 hc1
      obtain ⟨l, hl, hmem, hsort⟩ :=
        gprhLoop_total (planetSigns planet_name is_retrograde)
          planet_name is_retrograde cusps 12 1 htotal
      refine ⟨l, hl, hsort, ?_, fun hL2 => absurd hL2 hL, fun hN2 => absurd hN2 hN⟩
      intro x hx
      have := hmem x hx
      omega

/-- Counterexample to C3 as stated: on the degenerate (but in-range) cusp
set with all twelve cusps at 15°, Venus — which is not the lunar node —
receives the empty ruled-houses set, so the set is not "empty only for the
lunar node". -/
theorem get_planet_ruled_houses_empty_for_venus :
    get_planet_ruled_houses "Венера" (List.replicate 12 15) false [] = some [] ∧
      (∀ c ∈ List.replicate 12 (15 : ℚ), 0 ≤ c ∧ c < 360) ∧
      "Венера" ≠ "Северный узел" := by
  refine ⟨by with_unfolding_all decide, by with_unfolding_all decide, by decide⟩

/-- Witness for C3 at a concrete input: the Sun with the equal-house cusp
set starting at 0°. -/
theorem get_planet_ruled_houses_total_witness :
    ∃ l, get_planet_ruled_houses "Солнце"
        [0, 30, 60, 90, 120, 150, 180, 210, 240, 270, 300, 330] false [] = some l ∧
      l.Sorted (· < ·) ∧ (∀ x ∈ l, 1 ≤ x ∧ x ≤ 12) ∧
      ("Солнце" = "Лилит" → l = [8]) ∧
      ("Солнце" = "Северный узел" → l = []) :=
  get_planet_ruled_houses_total "Солнце"
    [0, 30, 60, 90, 120, 150, 180, 210, 240, 270, 300, 330] false []
    (by decide) (by decide)

/-! ## Orb matrix and aspect classification -/

/-- Source constant `ORB_PLANET_ORDER`: the planet indexing order of the
orb matrix. -/
def ORB_PLANET_ORDER : List String :=
  ["Солнце", "Луна", "Меркурий", "Венера", "Марс",
   "Юпитер", "Сатурн", "Уран", "Нептун", "Плутон", "Лилит"]

/-- Source constant `ORB_MATRIX`: the symmetric per-pair orb tolerances. -/
def ORB_MATRIX : List (List ℚ) :=
  [[8.5, 8.5, 8.5, 8.5, 8.5, 8.5, 9.0, 8.5, 8.5, 6.5, 5.0],
   [8.5, 8.5, 8.5, 8.5, 8.5, 8.5, 9.0, 8.5, 8.5, 6.5, 5.0],
   [8.5, 8.5, 8.5, 8.5, 8.5, 8.5, 9.0, 8.5, 8.5, 6.5, 5.0],
   [8.5, 8.5, 8.5, 8.5, 8.5, 8.5, 9.0, 8.5, 8.5, 6.5, 5.0],
   [8.5, 8.5, 8.5, 8.5, 8.5, 8.5, 9.0, 8.5, 8.5, 6.5, 5.0],
   [8.5, 8.5, 8.5, 8.5, 8.5, 8.5, 9.0, 8.5, 8.5, 6.5, 5.0],
   [9.0, 9.0, 9.0, 9.0, 9.0, 9.0, 9.0, 9.0, 9.0, 7.0, 5.0],
   [8.5, 8.5, 8.5, 8.5, 8.5, 8.5, 9.0, 8.5, 8.5, 6.5, 5.0],
   [8.5, 8.5, 8.5, 8.5, 8.5, 8.5, 9.0, 8.5, 8.5, 6.5, 5.0],
   [6.5, 6.5, 6.5, 6.5, 6.5, 6.5, 7.0, 6.5, 6.5, 6.5, 5.0],
   [5.0, 5.0, 5.0, 5.0, 5.0, 5.0, 5.0, 5.0, 5.0, 5.0, 5.0]]

/-- Source `get_orb_for_planets`: look both names up in
`ORB_PLANET_ORDER` and read the matrix; any failure (`ValueError` for an
unknown name) falls back to the standard orb 5.0. -/
def get_orb_for_planets (planet1 planet2 : String) : ℚ :=
  match ORB_PLANET_ORDER.indexOf? planet1, ORB_PLANET_ORDER.indexOf? planet2 with
  | some idx1, some idx2 => (ORB_MATRIX.getD idx1 []).getD idx2 5.0
  | _, _ => 5.0

/-- One entry of the source dict `ASPECTS_NATURE` (angle, name, symbol,
base orb, nature), kept in insertion order 0, 60, 90, 120, 180. -/
structure AspectKind where
  angle : ℚ
  name : String
  symbol : String
  orb : ℚ
  nature : String
deriving DecidableEq

/-- Source constant `ASPECTS_NATURE`. -/
def ASPECTS_NATURE : List AspectKind :=
  [⟨0, "Соединение", "☌", 8, "±"⟩,
   ⟨60, "Секстиль", "⚹", 6, "+"⟩,
   ⟨90, "Квадратура", "□", 8, "-"⟩,
   ⟨120, "Тригон", "△", 8, "+"⟩,
   ⟨180, "Оппозиция", "☍", 8, "-"⟩]

/-- The normalised signed difference computed at the top of
`is_aspect_applying`: `lon1 - lon2` brought into `[-180, 180]` by one
conditional ±360 adjustment. -/
def normDiff (lon1 lon2 : ℚ) : ℚ :=
  if lon1 - lon2 < -180 then lon1 - lon2 + 360
  else if lon1 - lon2 > 180 then lon1 - lon2 - 360
  else lon1 - lon2

/-- Source `is_aspect_applying`: whether the aspect is applying
(converging), by case analysis on the aspect angle. -/
def is_aspect_applying (lon1 lon2 speed1 speed2 aspect_angle : ℚ) : Bool :=
  let diff := normDiff lon1 lon2
  let relative_speed := speed1 - speed2
  if aspect_angle = 0 then
    if diff > 0 then decide (relative_speed < 0) else decide (relative_speed > 0)
  else if aspect_angle = 180 then
    if diff > 0 then
      if diff < 180 then decide (relative_speed > 0) else decide (relative_speed < 0)
    else
      if diff > -180 then decide (relative_speed < 0) else decide (relative_speed > 0)
  else
    if |diff - aspect_angle| < |diff - -aspect_angle| then
      decide ((diff < aspect_angle ∧ relative_speed > 0) ∨
        (diff > aspect_angle ∧ relative_speed < 0))
    else
      decide ((diff < -aspect_angle ∧ relative_speed > 0) ∨
        (diff > -aspect_angle ∧ relative_speed < 0))

/-- The classification record returned by `find_aspect`. -/
structure AspectResult where
  angle : ℚ
  name : String
  symbol : String
  orb : ℚ
  nature : String
  max_orb : ℚ
  applying : Option Bool
deriving DecidableEq

/-- The `for angle, data in ASPECTS_NATURE.items()` loop of
`find_aspect`: first aspect kind whose orb is within the tolerance. -/
def faLoop (lon1 lon2 : ℚ) (speed1 speed2 : Option ℚ) (diff max_orb : ℚ) :
    List AspectKind → Option AspectResult
  | [] => none
  | k :: rest =>
    if |diff - k.angle| ≤ max_orb then
      some ⟨k.angle, k.name, k.symbol, |diff - k.angle|, k.nature, max_orb,
        match speed1, speed2 with
        | some s1, some s2 => some (is_aspect_applying lon1 lon2 s1 s2 k.angle)
        | _, _ => none⟩
    else faLoop lon1 lon2 speed1 speed2 diff max_orb rest

/-- Source `find_aspect`.  (The Python name arguments default to `None`
and are tested for truthiness; they are modelled as `Option String`, so
the degenerate empty-string name — falsy in Python — is not
distinguished, and no call site passes it.) -/
def find_aspect (lon1 lon2 : ℚ) (planet1_name planet2_name : Option String)
    (speed1 speed2 : Option ℚ) : Option AspectResult :=
  let diff0 := |lon1 - lon2|
  let diff := if diff0 > 180 then 360 - diff0 else diff0
  let max_orb :=
    match planet1_name, planet2_name with
    | some p1, some p2 => get_orb_for_planets p1 p2
    | _, _ => 8.5
  faLoop lon1 lon2 speed1 speed2 diff max_orb ASPECTS_NATURE

/-! ### First-match aspect classification (C5) -/

/-- The angular separation formula of the specification:
`d = min(|lon1 - lon2|, 360 - |lon1 - lon2|)`. -/
def specSeparation (lon1 lon2 : ℚ) : ℚ :=
  min |lon1 - lon2| (360 - |lon1 - lon2|)

theorem faLoop_eq_find? (lon1 lon2 : ℚ) (s1 s2 : Option ℚ) (d tol : ℚ)
    (ks : List AspectKind) :
    ((faLoop lon1 lon2 s1 s2 d tol ks).map fun r => (r.angle, r.orb)) =
      ((ks.map (fun k => k.angle)).find? fun a => decide (|d - a| ≤ tol)).map
        fun a => (a, |d - a|) := by
  induction ks with
  | nil => rfl
  | cons k rest ih =>
    simp only [faLoop, List.map_cons, List.find?_cons]
    by_cases h : |d - k.angle| ≤ tol
    · simp [h]
    · simp [h, ih]

theorem faLoop_none_iff (lon1 lon2 : ℚ) (s1 s2 : Option ℚ) (d tol : ℚ)
    (ks : List AspectKind) :
    faLoop lon1 lon2 s1 s2 d tol ks = none ↔ ∀ k ∈ ks, tol < |d - k.angle| := by
  induction ks with
  | nil => simp [faLoop]
  | cons k rest ih =>
    simp only [faLoop]
    by_cases h : |d - k.angle| ≤ tol
    · rw [if_pos h]
      constructor
      · intro hsome
        exact absurd hsome (by simp)
      · intro hall
        exact absurd (hall k (List.mem_cons_self k rest)) (not_lt.mpr h)
    · rw [if_neg h, ih, List.forall_mem_cons]
      simp [not_le.mp h]

theorem code_diff_eq_specSeparation (lon1 lon2 : ℚ) :
    (if |lon1 - lon2| > 180 then 360 - |lon1 - lon2| else |lon1 - lon2|) =
      specSeparation lon1 lon2 := by
  unfold specSeparation
  rcases le_or_lt |lon1 - lon2| 180 with h | h
  · rw [if_neg (not_lt.mpr h), min_eq_left (by linarith)]
  · rw [if_pos h, min_eq_right (by linarith)]

/-- C5: `find_aspect` computes `d = min(|lon1-lon2|, 360-|lon1-lon2|)` and
returns a match for the first aspect angle, in ascending order over
{0, 60, 90, 120, 180}, whose orb `|d - angle|` is at most the orb-matrix
tolerance for the body pair; when no angle is within tolerance it returns
`none` rather than raising. -/
theorem find_aspect_first_match (lon1 lon2 : ℚ) (p1 p2 : String) (s1 s2 : Option ℚ) :
    (((find_aspect lon1 lon2 (some p1) (some p2) s1 s2).map fun r => (r.angle, r.orb)) =
      ((([0, 60, 90, 120, 180] : List ℚ).find? fun a =>
          decide (|specSeparation lon1 lon2 - a| ≤ get_orb_for_planets p1 p2)).map
        fun a => (a, |specSeparation lon1 lon2 - a|))) ∧
    (find_aspect lon1 lon2 (some p1) (some p2) s1 s2 = none ↔
      ∀ a ∈ ([0, 60, 90, 120, 180] : List ℚ),
        get_orb_for_planets p1 p2 < |specSeparation lon1 lon2 - a|) := by
  have hmap : ASPECTS_NATURE.map (fun k => k.angle) = ([0, 60, 90, 120, 180] : List ℚ) := rfl
  constructor
  · show ((faLoop lon1 lon2 s1 s2 _ _ ASPECTS_NATURE).map _) = _
    rw [code_diff_eq_specSeparation, faLoop_eq_find?, hmap]
  · show faLoop lon1 lon2 s1 s2 _ _ ASPECTS_NATURE = none ↔ _
    rw [code_diff_eq_specSeparation, faLoop_none_iff]
    constructor
    · intro h a ha
      rw [← hmap] at ha
      obtain ⟨k, hk, hka⟩ := List.mem_map.mp ha
      exact hka ▸ h k hk
    · intro h k hk
      exact h k.angle (by rw [← hmap]; exact List.mem_map.mpr ⟨k, hk, rfl⟩)

/-! ### Applying/separating against the specification (C4)

The specification reads: the flag is applying exactly when the relative
angular velocity is currently decreasing the offset from the nearest
exact-aspect angle, the offset being evaluated against both `+angle` and
`-angle` targets with the nearer one winning.  `SpecApplying` formalises
"currently decreasing" as: on some immediate right-neighbourhood of now,
moving both bodies along their velocities strictly decreases the offset. -/

/-- The nearest exact-aspect target, `+angle` or `-angle`; the strict
comparison resolves ties to the negative target, as the code's
non-strict `else` branch does. -/
def nearestTarget (d a : ℚ) : ℚ := if |d - a| < |d + a| then a else -a

/-- The offset of a configuration from the nearest exact-aspect angle:
both targets evaluated, the nearer one wins. -/
def specOffset (lon1 lon2 a : ℚ) : ℚ :=
  min |normDiff lon1 lon2 - a| |normDiff lon1 lon2 + a|

/-- Spec-side "applying": the offset from the nearest exact-aspect angle
is strictly decreasing on an immediate right-neighbourhood of now. -/
def SpecApplying (lon1 lon2 s1 s2 a : ℚ) : Prop :=
  ∃ ε : ℚ, 0 < ε ∧ ∀ t : ℚ, 0 < t → t ≤ ε →
    specOffset (lon1 + s1 * t) (lon2 + s2 * t) a < specOffset lon1 lon2 a

theorem small_step (rel t A B : ℚ) (hA : 0 < A) (hB : 0 < B) (ht0 : 0 < t)
    (ht : t ≤ min A B / (|rel| + 1)) : -B < rel * t ∧ rel * t < A := by
  have habs : |rel| * t < min A B := by
    have h1 : (0 : ℚ) ≤ |rel| := abs_nonneg rel
    have hmin : 0 < min A B := lt_min hA hB
    have h2 : (|rel| + 1) * t ≤ min A B := by
      rw [div_eq_mul_inv] at ht
      have hpos : (0 : ℚ) < |rel| + 1 := by linarith
      calc (|rel| + 1) * t ≤ (|rel| + 1) * (min A B * (|rel| + 1)⁻¹) :=
            mul_le_mul_of_nonneg_left ht (le_of_lt hpos)
        _ = min A B := by field_simp
    nlinarith
  have hrel1 : rel * t ≤ |rel| * t := mul_le_mul_of_nonneg_right (le_abs_self rel) (le_of_lt ht0)
  have hrel2 : -(|rel| * t) ≤ rel * t := by
    have := mul_le_mul_of_nonneg_right (neg_abs_le rel) (le_of_lt ht0)
    linarith
  constructor
  · have : min A B ≤ B := min_le_right A B
    linarith
  · have : min A B ≤ A := min_le_left A B
    linarith

theorem normDiff_bounds (lon1 lon2 : ℚ) (hl1 : 0 ≤ lon1) (hl2 : lon1 < 360)
    (hl3 : 0 ≤ lon2) (hl4 : lon2 < 360) :
    -180 ≤ normDiff lon1 lon2 ∧ normDiff lon1 lon2 ≤ 180 := by
  unfold normDiff
  split_ifs with h1 h2 <;> constructor <;> linarith

theorem normDiff_linear (lon1 lon2 s1 s2 : ℚ)
    (hl1 : 0 ≤ lon1) (hl2 : lon1 < 360) (hl3 : 0 ≤ lon2) (hl4 : lon2 < 360)
    (hd1 : normDiff lon1 lon2 ≠ 180) (hd2 : normDiff lon1 lon2 ≠ -180) :
    ∃ ε0 : ℚ, 0 < ε0 ∧ ∀ t : ℚ, 0 < t → t ≤ ε0 →
      normDiff (lon1 + s1 * t) (lon2 + s2 * t) =
        normDiff lon1 lon2 + (s1 - s2) * t := by
  have harg : ∀ t : ℚ, (lon1 + s1 * t) - (lon2 + s2 * t) = (lon1 - lon2) + (s1 - s2) * t := by
    intro t
    ring
  rcases lt_trichotomy (lon1 - lon2) (-180) with hc | hc | hc
  · -- the unnormalised difference lies in (-360, -180): +360 adjustment
    have hnd : normDiff lon1 lon2 = (lon1 - lon2) + 360 := by
      unfold normDiff
      rw [if_pos hc]
    refine ⟨min (-180 - (lon1 - lon2)) ((lon1 - lon2) + 360) / (|s1 - s2| + 1),
      div_pos (lt_min (by linarith) (by linarith)) (by positivity), ?_⟩
    intro t ht0 htle
    obtain ⟨hb1, hb2⟩ := small_step (s1 - s2) t _ _ (by linarith) (by linarith) ht0 htle
    rw [hnd]
    unfold normDiff
    rw [harg t, if_pos (by linarith)]
    ring
  · refine absurd ?_ hd2
    unfold normDiff
    rw [if_neg (by linarith), if_neg (by linarith)]
    exact hc
  · rcases lt_trichotomy (lon1 - lon2) 180 with hc2 | hc2 | hc2
    · -- the unnormalised difference lies in (-180, 180): no adjustment
      have hnd : normDiff lon1 lon2 = lon1 - lon2 := by
        unfold normDiff
        rw [if_neg (by linarith), if_neg (by linarith)]
      refine ⟨min (180 - (lon1 - lon2)) ((lon1 - lon2) + 180) / (|s1 - s2| + 1),
        div_pos (lt_min (by linarith) (by linarith)) (by positivity), ?_⟩
      intro t ht0 htle
      obtain ⟨hb1, hb2⟩ := small_step (s1 - s2) t _ _ (by linarith) (by linarith) ht0 htle
      rw [hnd]
      unfold normDiff
      rw [harg t, if_neg (by linarith), if_neg (by linarith)]
    · refine absurd ?_ hd1
      unfold normDiff
      rw [if_neg (by linarith), if_neg (by linarith)]
      exact hc2
    · -- the unnormalised difference lies in (180, 360): -360 adjustment
      have hnd : normDiff lon1 lon2 = (lon1 - lon2) - 360 := by
        unfold normDiff
        rw [if_neg (by linarith), if_pos (by linarith)]
      refine ⟨min (360 - (lon1 - lon2)) ((lon1 - lon2) - 180) / (|s1 - s2| + 1),
        div_pos (lt_min (by linarith) (by linarith)) (by positivity), ?_⟩
      intro t ht0 htle
      obtain ⟨hb1, hb2⟩ := small_step (s1 - s2) t _ _ (by linarith) (by linarith) ht0 htle
      rw [hnd]
      unfold normDiff
      rw [harg t, if_neg (by linarith), if_pos (by linarith)]
      ring

theorem min_eq_nearest_of_close (d a x : ℚ)
    (h : a = 0 ∨ 2 * |x - d| < |(|d - a|) - (|d + a|)|) :
    min |x - a| |x + a| = |x - nearestTarget d a| := by
  rcases h with rfl | hgap
  · simp [nearestTarget]
  · have hd1 : |x - a| ≤ |d - a| + |x - d| := by
      calc |x - a| = |(d - a) + (x - d)| := by ring_nf
        _ ≤ |d - a| + |x - d| := abs_add _ _
    have hd2 : |d - a| ≤ |x - a| + |x - d| := by
      calc |d - a| = |(x - a) + (d - x)| := by ring_nf
        _ ≤ |x - a| + |d - x| := abs_add _ _
        _ = |x - a| + |x - d| := by rw [abs_sub_comm d x]
    have hd3 : |x + a| ≤ |d + a| + |x - d| := by
      calc |x + a| = |(d + a) + (x - d)| := by ring_nf
        _ ≤ |d + a| + |x - d| := abs_add _ _
    have hd4 : |d + a| ≤ |x + a| + |x - d| := by
      calc |d + a| = |(x + a) + (d - x)| := by ring_nf
        _ ≤ |x + a| + |d - x| := abs_add _ _
        _ = |x + a| + |x - d| := by rw [abs_sub_comm d x]
    unfold nearestTarget
    rcases lt_trichotomy |d - a| |d + a| with hlt | heq | hgt
    · rw [if_pos hlt, min_eq_left]
      have : |(|d - a|) - (|d + a|)| = |d + a| - |d - a| := by
        rw [abs_of_neg (by linarith)]
        ring
      linarith [this ▸ hgap]
    · rw [heq] at hgap
      simp at hgap
      linarith [abs_nonneg (x - d), hgap]
    · rw [if_neg (not_lt.mpr (le_of_lt hgt)), sub_neg_eq_add, min_eq_right]
      have : |(|d - a|) - (|d + a|)| = |d - a| - |d + a| := by
        rw [abs_of_pos (by linarith)]
      linarith [this ▸ hgap]

theorem specOffset_eq_abs (lon1 lon2 a : ℚ)
    (htie : a = 0 ∨ |normDiff lon1 lon2 - a| ≠ |normDiff lon1 lon2 + a|) :
    specOffset lon1 lon2 a =
      |normDiff lon1 lon2 - nearestTarget (normDiff lon1 lon2) a| := by
  unfold specOffset
  apply min_eq_nearest_of_close
  rcases htie with h | h
  · exact Or.inl h
  · right
    have hpos : 0 < |(|normDiff lon1 lon2 - a|) - (|normDiff lon1 lon2 + a|)| :=
      abs_pos.mpr (sub_ne_zero.mpr h)
    simpa using hpos

theorem code_iff_product_0 (lon1 lon2 s1 s2 : ℚ) (hne : normDiff lon1 lon2 ≠ 0) :
    (is_aspect_applying lon1 lon2 s1 s2 0 = true ↔
      (normDiff lon1 lon2 - nearestTarget (normDiff lon1 lon2) 0) * (s1 - s2) < 0) := by
  have ht : nearestTarget (normDiff lon1 lon2) 0 = 0 := by
    unfold nearestTarget
    rw [sub_zero, add_zero, if_neg (lt_irrefl _), neg_zero]
  rw [ht, sub_zero]
  simp only [is_aspect_applying, if_true]
  by_cases hdp : normDiff lon1 lon2 > 0
  · rw [if_pos hdp, decide_eq_true_iff]
    constructor
    · intro h
      exact mul_neg_of_pos_of_neg hdp h
    · intro h
      rcases mul_neg_iff.mp h with ⟨_, h2⟩ | ⟨h1, _⟩
      · exact h2
      · linarith
  · have hdn : normDiff lon1 lon2 < 0 := lt_of_le_of_ne (not_lt.mp hdp) hne
    rw [if_neg hdp, decide_eq_true_iff]
    constructor
    · intro h
      exact mul_neg_of_neg_of_pos hdn h
    · intro h
      rcases mul_neg_iff.mp h with ⟨h1, _⟩ | ⟨_, h2⟩
      · linarith
      · exact h2

theorem code_iff_product_180 (lon1 lon2 s1 s2 : ℚ)
    (hdlb : -180 ≤ normDiff lon1 lon2) (hdub : normDiff lon1 lon2 ≤ 180)
    (hd1 : normDiff lon1 lon2 ≠ 180) (hd2 : normDiff lon1 lon2 ≠ -180) :
    (is_aspect_applying lon1 lon2 s1 s2 180 = true ↔
      (normDiff lon1 lon2 - nearestTarget (normDiff lon1 lon2) 180) * (s1 - s2) < 0) := by
  have habs1 : |normDiff lon1 lon2 - 180| = 180 - normDiff lon1 lon2 := by
    rw [abs_of_nonpos (by linarith)]
    ring
  have habs2 : |normDiff lon1 lon2 + 180| = normDiff lon1 lon2 + 180 := by
    rw [abs_of_nonneg (by linarith)]
  simp only [is_aspect_applying, if_true]
  unfold nearestTarget
  rw [habs1, habs2, if_neg (show ¬((180 : ℚ) = 0) by norm_num)]
  have h180lt : normDiff lon1 lon2 < 180 := lt_of_le_of_ne hdub hd1
  have h180gt : -180 < normDiff lon1 lon2 := lt_of_le_of_ne hdlb (Ne.symm hd2)
  by_cases hdp : normDiff lon1 lon2 > 0
  · rw [if_pos hdp, if_pos h180lt,
      if_pos (show 180 - normDiff lon1 lon2 < normDiff lon1 lon2 + 180 by linarith),
      decide_eq_true_iff]
    have hsub : normDiff lon1 lon2 - 180 < 0 := by linarith
    constructor
    · intro h
      exact mul_neg_of_neg_of_pos hsub h
    · intro h
      rcases mul_neg_iff.mp h with ⟨h1, _⟩ | ⟨_, h2⟩
      · linarith
      · exact h2
  · rw [if_neg hdp, if_pos h180gt,
      if_neg (show ¬(180 - normDiff lon1 lon2 < normDiff lon1 lon2 + 180) by
        push_neg at hdp ⊢
        linarith),
      decide_eq_true_iff]
    have hsub : 0 < normDiff lon1 lon2 - -180 := by linarith
    constructor
    · intro h
      exact mul_neg_of_pos_of_neg hsub h
    · intro h
      rcases mul_neg_iff.mp h with ⟨_, h2⟩ | ⟨h1, _⟩
      · exact h2
      · linarith

theorem code_iff_product_generic (lon1 lon2 s1 s2 a : ℚ) (h0 : a ≠ 0) (h180 : a ≠ 180) :
    (is_aspect_applying lon1 lon2 s1 s2 a = true ↔
      (normDiff lon1 lon2 - nearestTarget (normDiff lon1 lon2) a) * (s1 - s2) < 0) := by
  simp only [is_aspect_applying]
  rw [if_neg h0, if_neg h180]
  unfold nearestTarget
  have hceq : |normDiff lon1 lon2 - -a| = |normDiff lon1 lon2 + a| := by
    rw [sub_neg_eq_add]
  by_cases hcmp : |normDiff lon1 lon2 - a| < |normDiff lon1 lon2 + a|
  · rw [if_pos (by rw [hceq]; exact hcmp), if_pos hcmp, decide_eq_true_iff]
    constructor
    · rintro (⟨h1, h2⟩ | ⟨h1, h2⟩)
      · exact mul_neg_of_neg_of_pos (by linarith) h2
      · exact mul_neg_of_pos_of_neg (by linarith) h2
    · intro h
      rcases mul_neg_iff.mp h with ⟨h1, h2⟩ | ⟨h1, h2⟩
      · exact Or.inr ⟨by linarith, h2⟩
      · exact Or.inl ⟨by linarith, h2⟩
  · rw [if_neg (by rw [hceq]; exact hcmp), if_neg hcmp, decide_eq_true_iff, sub_neg_eq_add]
    constructor
    · rintro (⟨h1, h2⟩ | ⟨h1, h2⟩)
      · exact mul_neg_of_neg_of_pos (by linarith) h2
      · exact mul_neg_of_pos_of_neg (by linarith) h2
    · intro h
      rcases mul_neg_iff.mp h with ⟨h1, h2⟩ | ⟨h1, h2⟩
      · exact Or.inr ⟨by linarith, h2⟩
      · exact Or.inl ⟨by linarith, h2⟩

set_option maxHeartbeats 1600000 in
theorem specApplying_iff_product (lon1 lon2 s1 s2 a : ℚ)
    (hl1 : 0 ≤ lon1) (hl2 : lon1 < 360) (hl3 : 0 ≤ lon2) (hl4 : lon2 < 360)
    (hd1 : normDiff lon1 lon2 ≠ 180) (hd2 : normDiff lon1 lon2 ≠ -180)
    (htie : a = 0 ∨ |normDiff lon1 lon2 - a| ≠ |normDiff lon1 lon2 + a|)
    (hne : normDiff lon1 lon2 ≠ nearestTarget (normDiff lon1 lon2) a) :
    (SpecApplying lon1 lon2 s1 s2 a ↔
      (normDiff lon1 lon2 - nearestTarget (normDiff lon1 lon2) a) * (s1 - s2) < 0) := by
  obtain ⟨ε0, hε0, hlin⟩ := normDiff_linear lon1 lon2 s1 s2 hl1 hl2 hl3 hl4 hd1 hd2
  have hoffbase : specOffset lon1 lon2 a =
      |normDiff lon1 lon2 - nearestTarget (normDiff lon1 lon2) a| :=
    specOffset_eq_abs lon1 lon2 a htie
  set d := normDiff lon1 lon2 with hdd
  set rel := s1 - s2 with hreldef
  set tstar := nearestTarget d a with htdef
  have htpos : 0 < |d - tstar| := abs_pos.mpr (sub_ne_zero.mpr hne)
  obtain ⟨ε2, hε2pos, hε2close⟩ :
      ∃ ε2 : ℚ, 0 < ε2 ∧ ∀ t : ℚ, 0 < t → t ≤ ε2 →
        (a = 0 ∨ 2 * (|rel| * t) < |(|d - a|) - (|d + a|)|) := by
    by_cases ha0 : a = 0
    · exact ⟨1, one_pos, fun t _ _ => Or.inl ha0⟩
    · have hgpos : 0 < |(|d - a|) - (|d + a|)| :=
        abs_pos.mpr (sub_ne_zero.mpr (htie.resolve_left ha0))
      refine ⟨|(|d - a|) - (|d + a|)| / (2 * (|rel| + 1)), by positivity,
        fun t ht0 htle => Or.inr ?_⟩
      have hpos : (0 : ℚ) < 2 * (|rel| + 1) := by positivity
      have h2 : (2 * (|rel| + 1)) * t ≤ |(|d - a|) - (|d + a|)| := by
        rw [div_eq_mul_inv] at htle
        calc (2 * (|rel| + 1)) * t
            ≤ (2 * (|rel| + 1)) * (|(|d - a|) - (|d + a|)| * (2 * (|rel| + 1))⁻¹) :=
              mul_le_mul_of_nonneg_left htle (le_of_lt hpos)
          _ = |(|d - a|) - (|d + a|)| := by field_simp
      nlinarith [abs_nonneg rel]
  set ε1 := |d - tstar| / (|rel| + 1) with hε1def
  have hε1pos : 0 < ε1 := by positivity
  have hstep : ∀ t : ℚ, 0 < t → t ≤ ε0 → t ≤ ε1 → t ≤ ε2 →
      specOffset (lon1 + s1 * t) (lon2 + s2 * t) a = |d + rel * t - tstar| ∧
      |rel| * t < |d - tstar| := by
    intro t ht0 h0 h1 h2
    have hx : normDiff (lon1 + s1 * t) (lon2 + s2 * t) = d + rel * t := hlin t ht0 h0
    constructor
    · unfold specOffset
      rw [hx]
      apply min_eq_nearest_of_close
      rcases hε2close t ht0 h2 with h | h
      · exact Or.inl h
      · right
        have : |d + rel * t - d| = |rel| * t := by
          rw [show d + rel * t - d = rel * t by ring, abs_mul, abs_of_pos ht0]
        rw [this]
        exact h
    · have hmul : (|rel| + 1) * t ≤ |d - tstar| := by
        rw [hε1def, div_eq_mul_inv] at h1
        have hpos : (0 : ℚ) < |rel| + 1 := by positivity
        calc (|rel| + 1) * t ≤ (|rel| + 1) * (|d - tstar| * (|rel| + 1)⁻¹) :=
              mul_le_mul_of_nonneg_left h1 (le_of_lt hpos)
          _ = |d - tstar| := by field_simp
      nlinarith [abs_nonneg rel]
  constructor
  · rintro ⟨ε, hε, hdec⟩
    set t := min ε (min ε0 (min ε1 ε2)) with htdef2
    have ht0 : 0 < t := lt_min hε (lt_min hε0 (lt_min hε1pos hε2pos))
    have hta : t ≤ ε := min_le_left _ _
    have htb : t ≤ ε0 := le_trans (min_le_right _ _) (min_le_left _ _)
    have htc : t ≤ ε1 := le_trans (min_le_right _ _) (le_trans (min_le_right _ _) (min_le_left _ _))
    have htd : t ≤ ε2 := le_trans (min_le_right _ _) (le_trans (min_le_right _ _) (min_le_right _ _))
    have hd1t := hdec t ht0 hta
    obtain ⟨heq, hlt⟩ := hstep t ht0 htb htc htd
    rw [heq, hoffbase] at hd1t
    have hrellow : -(|rel| * t) ≤ rel * t := by
      have := mul_le_mul_of_nonneg_right (neg_abs_le rel) (le_of_lt ht0)
      linarith
    have hrelhigh : rel * t ≤ |rel| * t :=
      mul_le_mul_of_nonneg_right (le_abs_self rel) (le_of_lt ht0)
    rcases lt_trichotomy (d - tstar) 0 with hneg | h0' | hpos
    · have habsd : |d - tstar| = -(d - tstar) := abs_of_neg hneg
      have hxneg : d + rel * t - tstar < 0 := by nlinarith
      rw [abs_of_neg hxneg, habsd] at hd1t
      have hrelt : 0 < rel * t := by linarith
      have hrelpos : 0 < rel := by
        by_contra hcon
        push_neg at hcon
        nlinarith
      exact mul_neg_of_neg_of_pos hneg hrelpos
    · exact absurd h0' (sub_ne_zero.mpr hne)
    · have habsd : |d - tstar| = d - tstar := abs_of_pos hpos
      have hxpos : 0 < d + rel * t - tstar := by nlinarith
      rw [abs_of_pos hxpos, habsd] at hd1t
      have hrelt : rel * t < 0 := by linarith
      have hrelneg : rel < 0 := by
        by_contra hcon
        push_neg at hcon
        nlinarith
      exact mul_neg_of_pos_of_neg hpos hrelneg
  · intro hprod
    refine ⟨min ε0 (min ε1 ε2), lt_min hε0 (lt_min hε1pos hε2pos), fun t ht0 htle => ?_⟩
    have htb : t ≤ ε0 := le_trans htle (min_le_left _ _)
    have htc : t ≤ ε1 := le_trans htle (le_trans (min_le_right _ _) (min_le_left _ _))
    have htd : t ≤ ε2 := le_trans htle (le_trans (min_le_right _ _) (min_le_right _ _))
    obtain ⟨heq, hlt⟩ := hstep t ht0 htb htc htd
    rw [heq, hoffbase]
    have hrellow : -(|rel| * t) ≤ rel * t := by
      have := mul_le_mul_of_nonneg_right (neg_abs_le rel) (le_of_lt ht0)
      linarith
    have hrelhigh : rel * t ≤ |rel| * t :=
      mul_le_mul_of_nonneg_right (le_abs_self rel) (le_of_lt ht0)
    rcases lt_trichotomy (d - tstar) 0 with hneg | h0' | hpos
    · have hrelpos : 0 < rel := by
        rcases mul_neg_iff.mp hprod with ⟨h1, _⟩ | ⟨_, h2⟩
        · linarith
        · exact h2
      have habsd : |d - tstar| = -(d - tstar) := abs_of_neg hneg
      have hxneg : d + rel * t - tstar < 0 := by nlinarith
      rw [abs_of_neg hxneg, habsd]
      have : 0 < rel * t := mul_pos hrelpos ht0
      linarith
    · exact absurd h0' (sub_ne_zero.mpr hne)
    · have hrelneg : rel < 0 := by
        rcases mul_neg_iff.mp hprod with ⟨_, h2⟩ | ⟨h1, _⟩
        · exact h2
        · linarith
      have habsd : |d - tstar| = d - tstar := abs_of_pos hpos
      have hxpos : 0 < d + rel * t - tstar := by nlinarith
      rw [abs_of_pos hxpos, habsd]
      have : rel * t < 0 := mul_neg_of_neg_of_pos hrelneg ht0
      linarith

/-- C4 (amended): for longitudes in `[0, 360)` and any source aspect
angle, away from the degenerate configurations — zero offset, an exact
tie between the `+angle` and `-angle` targets, and the antipodal
difference ±180° — the applying flag of aspect classification is true
exactly when the relative angular velocity is currently (strictly, on an
immediate right-neighbourhood) decreasing the offset from the nearest
exact-aspect angle; in particular immediately before an exact crossing
the flag reads applying and immediately after it reads separating. -/
theorem is_aspect_applying_iff_spec (lon1 lon2 s1 s2 a : ℚ)
    (ha : a = 0 ∨ a = 60 ∨ a = 90 ∨ a = 120 ∨ a = 180)
    (hl1 : 0 ≤ lon1) (hl2 : lon1 < 360) (hl3 : 0 ≤ lon2) (hl4 : lon2 < 360)
    (hoff : specOffset lon1 lon2 a ≠ 0)
    (htie : a = 0 ∨ |normDiff lon1 lon2 - a| ≠ |normDiff lon1 lon2 + a|)
    (hd1 : normDiff lon1 lon2 ≠ 180) (hd2 : normDiff lon1 lon2 ≠ -180) :
    (is_aspect_applying lon1 lon2 s1 s2 a = true ↔ SpecApplying lon1 lon2 s1 s2 a) := by
  have hne : normDiff lon1 lon2 ≠ nearestTarget (normDiff lon1 lon2) a := by
    intro heq
    apply hoff
    rw [specOffset_eq_abs lon1 lon2 a htie, ← heq, sub_self, abs_zero]
  rw [specApplying_iff_product lon1 lon2 s1 s2 a hl1 hl2 hl3 hl4 hd1 hd2 htie hne]
  obtain ⟨hdlb, hdub⟩ := normDiff_bounds lon1 lon2 hl1 hl2 hl3 hl4
  rcases ha with rfl | rfl | rfl | rfl | rfl
  · refine code_iff_product_0 lon1 lon2 s1 s2 ?_
    intro h0
    apply hne
    unfold nearestTarget
    rw [sub_zero, add_zero, if_neg (lt_irrefl _), neg_zero]
    exact h0
  · exact code_iff_product_generic lon1 lon2 s1 s2 60 (by norm_num) (by norm_num)
  · exact code_iff_product_generic lon1 lon2 s1 s2 90 (by norm_num) (by norm_num)
  · exact code_iff_product_generic lon1 lon2 s1 s2 120 (by norm_num) (by norm_num)
  · exact code_iff_product_180 lon1 lon2 s1 s2 hdlb hdub hd1 hd2

/-- Counterexample to C4 as stated: at three in-range configurations the
flag disagrees with "true exactly when the relative velocity is currently
decreasing the offset from the nearest exact-aspect angle".  Exactly at a
conjunction (zero offset) the code reports applying although the offset
cannot decrease; exactly midway between the +60° and −60° targets the
code reports separating although the offset is decreasing; and at the
antipodal difference 180° the code reports separating although the
offset, wrapping through ±180°, is decreasing. -/
theorem is_aspect_applying_spec_counterexample :
    (is_aspect_applying 0 0 1 0 0 = true ∧ ¬ SpecApplying 0 0 1 0 0) ∧
    (is_aspect_applying 0 0 1 0 60 = false ∧ SpecApplying 0 0 1 0 60) ∧
    (is_aspect_applying 180 0 1 0 60 = false ∧ SpecApplying 180 0 1 0 60) := by
  refine ⟨⟨by with_unfolding_all decide, ?_⟩,
    ⟨by with_unfolding_all decide, ?_⟩, ⟨by with_unfolding_all decide, ?_⟩⟩
  · rintro ⟨ε, hε, h⟩
    have h0 : specOffset 0 0 0 = 0 := by norm_num [specOffset, normDiff]
    have h2 := h (min ε 1) (lt_min hε one_pos) (min_le_left _ _)
    rw [h0] at h2
    exact absurd h2 (not_lt.mpr (le_min (abs_nonneg _) (abs_nonneg _)))
  · refine ⟨1, one_pos, fun t ht0 ht1 => ?_⟩
    have hnd : normDiff (0 + 1 * t) (0 + 0 * t) = t := by
      unfold normDiff
      rw [if_neg (by linarith), if_neg (by linarith)]
      ring
    have hbase : specOffset 0 0 60 = 60 := by
      unfold specOffset normDiff
      rw [if_neg (by norm_num), if_neg (by norm_num)]
      rw [show (0 : ℚ) - 0 - 60 = -60 by norm_num, show (0 : ℚ) - 0 + 60 = 60 by norm_num]
      rw [abs_of_neg (by norm_num), abs_of_pos (by norm_num)]
      norm_num
    rw [hbase]
    unfold specOffset
    rw [hnd, abs_of_neg (show t - 60 < 0 by linarith),
      abs_of_pos (show (0 : ℚ) < t + 60 by linarith), min_eq_left (by linarith)]
    linarith
  · refine ⟨1, one_pos, fun t ht0 ht1 => ?_⟩
    have hnd : normDiff (180 + 1 * t) (0 + 0 * t) = t - 180 := by
      unfold normDiff
      rw [if_neg (by linarith), if_pos (by linarith)]
      ring
    have hbase : specOffset 180 0 60 = 120 := by
      unfold specOffset normDiff
      rw [if_neg (by norm_num), if_neg (by norm_num)]
      rw [show (180 : ℚ) - 0 - 60 = 120 by norm_num, show (180 : ℚ) - 0 + 60 = 240 by norm_num]
      rw [abs_of_pos (by norm_num), abs_of_pos (by norm_num)]
      norm_num
    rw [hbase]
    unfold specOffset
    rw [hnd, show t - 180 - 60 = t - 240 by ring, show t - 180 + 60 = t - 120 by ring,
      abs_of_neg (show t - 240 < 0 by linarith), abs_of_neg (show t - 120 < 0 by linarith),
      min_eq_right (by linarith)]
    linarith

/-- Witness for C4 at a concrete in-range, non-degenerate configuration:
body 1 at 100° moving at +1°/day, body 2 fixed at 0°, square aspect. -/
theorem is_aspect_applying_iff_spec_witness :
    (is_aspect_applying 100 0 1 0 90 = true ↔ SpecApplying 100 0 1 0 90) :=
  is_aspect_applying_iff_spec 100 0 1 0 90 (by norm_num)
    (by norm_num) (by norm_num) (by norm_num) (by norm_num)
    (by with_unfolding_all decide) (by with_unfolding_all decide)
    (by with_unfolding_all decide) (by with_unfolding_all decide)

/-! ## House-connection matrix (`build_house_connections`) -/

/-- The fields of one aspect record that `build_house_connections`
consumes: each side's house of placement, ruled houses, and the nature
tag of the aspect. -/
structure AspectRec where
  p1_house : ℕ
  p1_rules : List ℕ
  p2_house : ℕ
  p2_rules : List ℕ
  nature : String
deriving DecidableEq

/-- The per-nature counters stored under one house-pair key,
`{'+': _, '-': _, '±': _}`. -/
structure ConnCounts where
  plus : ℕ
  minus : ℕ
  both : ℕ
deriving DecidableEq

def ConnCounts.zero : ConnCounts := ⟨0, 0, 0⟩

/-- `counts[nature] += 1`.  A tag outside {+, -, ±} would raise `KeyError`
in Python; it never occurs (the only producers are `ASPECTS_NATURE` and
the cusp-conjunction branch) and is modelled as a no-op. -/
def ConnCounts.bump (c : ConnCounts) (nature : String) : ConnCounts :=
  if nature = "+" then { c with plus := c.plus + 1 }
  else if nature = "-" then { c with minus := c.minus + 1 }
  else if nature = "±" then { c with both := c.both + 1 }
  else c

/-- Reading one nature counter of a `ConnCounts` record. -/
def natureCount (c : ConnCounts) (nature : String) : ℕ :=
  if nature = "+" then c.plus
  else if nature = "-" then c.minus
  else if nature = "±" then c.both
  else 0

/-- The insertion-ordered dict of connections: lookup of the first entry
with the given key, defaulting to zero counters (a missing dict key). -/
def lookupConn : List ((ℕ × ℕ) × ConnCounts) → (ℕ × ℕ) → ConnCounts
  | [], _ => ConnCounts.zero
  | e :: rest, key => if e.1 = key then e.2 else lookupConn rest key

/-- Key-membership in the connection table. -/
def containsKey : List ((ℕ × ℕ) × ConnCounts) → (ℕ × ℕ) → Bool
  | [], _ => false
  | e :: rest, key => decide (e.1 = key) || containsKey rest key

/-- `if key not in connections: connections[key] = zero;
connections[key][nature] += 1` on the insertion-ordered dict. -/
def bumpConn (conns : List ((ℕ × ℕ) × ConnCounts)) (key : ℕ × ℕ) (nature : String) :
    List ((ℕ × ℕ) × ConnCounts) :=
  if containsKey conns key then
    conns.map fun e => if e.1 = key then (e.1, e.2.bump nature) else e
  else conns ++ [(key, ConnCounts.zero.bump nature)]

/-- The union of a body's house of placement and its ruled houses, kept
positive and without duplicates: `list(set(h for h in [house] + rules if
h > 0))`. -/
def houseUnion (house : ℕ) (rules : List ℕ) : List ℕ :=
  ((house :: rules).filter fun h => decide (0 < h)).dedup

/-- The double loop of `build_house_connections` over one aspect: every
ordered pair from `houses1 × houses2`, skipping equal pairs, increments
the counter of the sorted key. -/
def connectPairs (conns : List ((ℕ × ℕ) × ConnCounts)) (houses1 houses2 : List ℕ)
    (nature : String) : List ((ℕ × ℕ) × ConnCounts) :=
  houses1.foldl
    (fun acc h1 =>
      houses2.foldl
        (fun acc2 h2 =>
          if h1 = h2 then acc2
          else bumpConn acc2 (min h1 h2, max h1 h2) nature)
        acc)
    conns

/-- Source `build_house_connections` (its `planets_data` parameter is
accepted and unused, as in the source body). -/
def build_house_connections (aspects : List AspectRec) :
    List ((ℕ × ℕ) × ConnCounts) :=
  aspects.foldl
    (fun conns asp =>
      connectPairs conns (houseUnion asp.p1_house asp.p1_rules)
        (houseUnion asp.p2_house asp.p2_rules) asp.nature)
    []

/-- The number of ordered distinct-house pairs of one aspect mapping to a
given unordered key. -/
def countPairs (houses1 houses2 : List ℕ) (key : ℕ × ℕ) : ℕ :=
  (houses1.map fun h1 =>
    (houses2.filter fun h2 =>
      decide (h1 ≠ h2) && decide ((min h1 h2, max h1 h2) = key)).length).sum

theorem lookupConn_map_ne (conns : List ((ℕ × ℕ) × ConnCounts)) (key key2 : ℕ × ℕ)
    (n : String) (hne : key2 ≠ key) :
    lookupConn (conns.map fun e => if e.1 = key then (e.1, e.2.bump n) else e) key2 =
      lookupConn conns key2 := by
  induction conns with
  | nil => rfl
  | cons e rest ih =>
    simp only [List.map_cons]
    by_cases he : e.1 = key
    · rw [show (if e.1 = key then (e.1, e.2.bump n) else e) = (e.1, e.2.bump n) from if_pos he]
      unfold lookupConn
      rw [if_neg (by simp only []; rw [he]; exact fun h => hne h.symm),
        if_neg (by rw [he]; exact fun h => hne h.symm)]
      exact ih
    · rw [show (if e.1 = key then (e.1, e.2.bump n) else e) = e from if_neg he]
      unfold lookupConn
      by_cases h2 : e.1 = key2
      · rw [if_pos h2, if_pos h2]
      · rw [if_neg h2, if_neg h2]
        exact ih

theorem lookupConn_map_eq (conns : List ((ℕ × ℕ) × ConnCounts)) (key : ℕ × ℕ)
    (n : String) (hc : containsKey conns key = true) :
    lookupConn (conns.map fun e => if e.1 = key then (e.1, e.2.bump n) else e) key =
      (lookupConn conns key).bump n := by
  induction conns with
  | nil => simp [containsKey] at hc
  | cons e rest ih =>
    simp only [List.map_cons]
    by_cases he : e.1 = key
    · rw [show (if e.1 = key then (e.1, e.2.bump n) else e) = (e.1, e.2.bump n) from if_pos he]
      unfold lookupConn
      rw [if_pos he, if_pos he]
    · rw [show (if e.1 = key then (e.1, e.2.bump n) else e) = e from if_neg he]
      unfold lookupConn
      rw [if_neg he, if_neg he]
      apply ih
      unfold containsKey at hc
      simp only [Bool.or_eq_true, decide_eq_true_eq] at hc
      rcases hc with h | h
      · exact absurd h he
      · exact h

theorem lookupConn_not_contains (conns : List ((ℕ × ℕ) × ConnCounts)) (key : ℕ × ℕ)
    (hc : containsKey conns key = false) : lookupConn conns key = ConnCounts.zero := by
  induction conns with
  | nil => rfl
  | cons e rest ih =>
    unfold containsKey at hc
    simp only [Bool.or_eq_false_iff, decide_eq_false_iff_not] at hc
    unfold lookupConn
    rw [if_neg hc.1]
    exact ih hc.2

theorem lookupConn_append_single (conns : List ((ℕ × ℕ) × ConnCounts))
    (key key2 : ℕ × ℕ) (c : ConnCounts) :
    lookupConn (conns ++ [(key, c)]) key2 =
      if containsKey conns key2 then lookupConn conns key2
      else if key2 = key then c else ConnCounts.zero := by
  induction conns with
  | nil =>
    simp only [List.nil_append, lookupConn, containsKey, Bool.false_eq_true, if_false]
    by_cases h : key = key2
    · rw [if_pos h, if_pos h.symm]
    · rw [if_neg h, if_neg (fun hh => h hh.symm)]
  | cons e rest ih =>
    simp only [List.cons_append]
    unfold lookupConn containsKey
    by_cases h : e.1 = key2
    · simp [h]
    · simp only [h, if_false, decide_eq_false_iff_not, Bool.false_or]
      rw [ih]
      simp [h]

theorem lookupConn_bumpConn (conns : List ((ℕ × ℕ) × ConnCounts)) (key key2 : ℕ × ℕ)
    (n : String) :
    lookupConn (bumpConn conns key n) key2 =
      if key2 = key then (lookupConn conns key).bump n else lookupConn conns key2 := by
  unfold bumpConn
  by_cases hc : containsKey conns key = true
  · rw [if_pos hc]
    by_cases h2 : key2 = key
    · subst h2
      rw [if_pos rfl]
      exact lookupConn_map_eq conns key2 n hc
    · rw [if_neg h2]
      exact lookupConn_map_ne conns key key2 n h2
  · rw [if_neg hc, lookupConn_append_single]
    by_cases h2 : key2 = key
    · subst h2
      rw [if_neg hc, if_pos rfl, if_pos rfl,
        lookupConn_not_contains conns key2 (Bool.not_eq_true _ ▸ hc)]
    · rw [if_neg h2, if_neg h2]
      by_cases h3 : containsKey conns key2
      · rw [if_pos h3]
      · rw [if_neg h3, lookupConn_not_contains conns key2 (Bool.not_eq_true _ ▸ h3)]

theorem natureCount_bump (c : ConnCounts) (n n0 : String)
    (hn0 : n0 = "+" ∨ n0 = "-" ∨ n0 = "±") :
    natureCount (c.bump n) n0 = natureCount c n0 + (if n = n0 then 1 else 0) := by
  unfold ConnCounts.bump natureCount
  rcases hn0 with rfl | rfl | rfl <;> split_ifs <;> simp_all

theorem natureCount_zero (n0 : String) : natureCount ConnCounts.zero n0 = 0 := by
  unfold natureCount ConnCounts.zero
  split_ifs <;> rfl

theorem natureCount_row (key : ℕ × ℕ) (n0 : String)
    (hn0 : n0 = "+" ∨ n0 = "-" ∨ n0 = "±") (h1 : ℕ) (nature : String) :
    ∀ (houses2 : List ℕ) (acc : List ((ℕ × ℕ) × ConnCounts)),
      natureCount (lookupConn (houses2.foldl
          (fun acc2 h2 => if h1 = h2 then acc2
            else bumpConn acc2 (min h1 h2, max h1 h2) nature) acc) key) n0 =
        natureCount (lookupConn acc key) n0 +
          (if nature = n0 then (houses2.filter fun h2 =>
              decide (h1 ≠ h2) && decide ((min h1 h2, max h1 h2) = key)).length else 0) := by
  intro houses2
  induction houses2 with
  | nil =>
    intro acc
    simp
  | cons h2 rest ih =>
    intro acc
    rw [List.foldl_cons, List.filter_cons]
    by_cases heq : h1 = h2
    · rw [if_pos heq,
        if_neg (show ¬(decide (h1 ≠ h2) && decide ((min h1 h2, max h1 h2) = key)) = true by
          simp [heq]),
        ih]
    · rw [if_neg heq]
      by_cases hkey : (min h1 h2, max h1 h2) = key
      · rw [if_pos (show (decide (h1 ≠ h2) && decide ((min h1 h2, max h1 h2) = key)) = true by
            simp [heq, hkey]),
          ih, lookupConn_bumpConn, if_pos hkey.symm, hkey,
          natureCount_bump _ nature n0 hn0]
        split_ifs <;> simp_arith
      · rw [if_neg (show ¬(decide (h1 ≠ h2) && decide ((min h1 h2, max h1 h2) = key)) = true by
            simp [hkey]),
          ih, lookupConn_bumpConn, if_neg (fun hh => hkey hh.symm)]

theorem natureCount_connectPairs (key : ℕ × ℕ) (n0 : String)
    (hn0 : n0 = "+" ∨ n0 = "-" ∨ n0 = "±") (nature : String) :
    ∀ (houses1 houses2 : List ℕ) (acc : List ((ℕ × ℕ) × ConnCounts)),
      natureCount (lookupConn (connectPairs acc houses1 houses2 nature) key) n0 =
        natureCount (lookupConn acc key) n0 +
          (if nature = n0 then countPairs houses1 houses2 key else 0) := by
  intro houses1
  induction houses1 with
  | nil =>
    intro houses2 acc
    simp [connectPairs, countPairs]
  | cons h1 rest ih =>
    intro houses2 acc
    unfold connectPairs countPairs
    rw [List.foldl_cons, List.map_cons, List.sum_cons]
    have hih := ih houses2 (houses2.foldl
      (fun acc2 h2 => if h1 = h2 then acc2
        else bumpConn acc2 (min h1 h2, max h1 h2) nature) acc)
    unfold connectPairs countPairs at hih
    rw [hih, natureCount_row key n0 hn0 h1 nature houses2 acc]
    split_ifs <;> omega

/-- C8 (amended): for every aspect list, the count stored in the
house-connection table under an unordered house pair and a nature tag is
the total, over the aspects of that nature, of the ordered pairs drawn
from {body1's house} ∪ body1's ruled houses × {body2's house} ∪ body2's
ruled houses whose two houses are distinct and whose sorted form is that
key (pairs with equal houses are skipped). -/
theorem build_house_connections_counts (aspects : List AspectRec) (key : ℕ × ℕ)
    (n0 : String) (hn0 : n0 = "+" ∨ n0 = "-" ∨ n0 = "±") :
    natureCount (lookupConn (build_house_connections aspects) key) n0 =
      (aspects.map fun asp =>
        if asp.nature = n0 then
          countPairs (houseUnion asp.p1_house asp.p1_rules)
            (houseUnion asp.p2_house asp.p2_rules) key
        else 0).sum := by
  suffices h : ∀ (asps : List AspectRec) (acc : List ((ℕ × ℕ) × ConnCounts)),
      natureCount (lookupConn (asps.foldl
        (fun conns asp => connectPairs conns (houseUnion asp.p1_house asp.p1_rules)
          (houseUnion asp.p2_house asp.p2_rules) asp.nature) acc) key) n0 =
      natureCount (lookupConn acc key) n0 +
        (asps.map fun asp =>
          if asp.nature = n0 then
            countPairs (houseUnion asp.p1_house asp.p1_rules)
              (houseUnion asp.p2_house asp.p2_rules) key
          else 0).sum by
    have h2 := h aspects []
    unfold build_house_connections
    rw [h2]
    show natureCount ConnCounts.zero n0 + _ = _
    rw [natureCount_zero]
    omega
  intro asps
  induction asps with
  | nil =>
    intro acc
    simp
  | cons a rest ih =>
    intro acc
    rw [List.foldl_cons, List.map_cons, List.sum_cons, ih,
      natureCount_connectPairs key n0 hn0 a.nature _ _ acc]
    omega

/-- Counterexample to C8 as stated: an aspect whose two sides resolve to
the same single house produces the pair (1, 1) in the union × union
product, yet the code skips equal pairs, so no counter is ever created:
the table stays empty and the count of (1, 1) stays 0 rather than being
incremented "for every resulting house pair". -/
theorem build_house_connections_skips_equal_pairs :
    build_house_connections [⟨1, [], 1, [], "+"⟩] = [] ∧
    natureCount (lookupConn (build_house_connections [⟨1, [], 1, [], "+"⟩]) (1, 1)) "+" = 0 :=
  ⟨rfl, rfl⟩

/-- Witness for C8 at a concrete input: one "+" aspect with body 1 in
house 1 ruling house 2, body 2 in house 3 ruling house 4; the key (1, 3)
receives exactly one increment. -/
theorem build_house_connections_counts_witness :
    natureCount (lookupConn (build_house_connections [⟨1, [2], 3, [4], "+"⟩]) (1, 3)) "+" =
      (([(⟨1, [2], 3, [4], "+"⟩ : AspectRec)]).map (fun asp =>
        if asp.nature = "+" then
          countPairs (houseUnion asp.p1_house asp.p1_rules)
            (houseUnion asp.p2_house asp.p2_rules) (1, 3)
        else 0)).sum :=
  build_house_connections_counts [⟨1, [2], 3, [4], "+"⟩] (1, 3) "+" (Or.inl rfl)

/-! ## Strong formulas (`calculate_full_natal_analysis`, steps 5) -/

/-- One reported strong formula, as assembled by
`calculate_full_natal_analysis` from a connection-table entry. -/
structure StrongFormula where
  houses : ℕ × ℕ
  positive : ℕ
  negative : ℕ
  neutral : ℕ
  total : ℕ
deriving DecidableEq

/-- The record built for one eligible connection-table entry. -/
def mkStrongFormula (e : (ℕ × ℕ) × ConnCounts) : StrongFormula :=
  ⟨e.1, e.2.plus, e.2.minus, e.2.both, e.2.plus + e.2.minus + e.2.both⟩

/-- Stable descending insertion: the new element passes the strictly
larger totals and lands before the first element with an equal or
smaller total, so earlier tied elements keep their place — the
behaviour of Python's stable `sort(key=lambda x: -x['total'])`. -/
def insertDesc (x : StrongFormula) : List StrongFormula → List StrongFormula
  | [] => [x]
  | y :: rest => if x.total < y.total then y :: insertDesc x rest else x :: y :: rest

/-- Stable sort by total, descending. -/
def sortByTotalDesc : List StrongFormula → List StrongFormula
  | [] => []
  | x :: rest => insertDesc x (sortByTotalDesc rest)

/-- Step 5 of `calculate_full_natal_analysis`: walk the connection table
in its (insertion) order, keep the pairs whose summed counts reach 3, and
stable-sort the reports by total descending. -/
def strongFormulasOf (connections : List ((ℕ × ℕ) × ConnCounts)) : List StrongFormula :=
  sortByTotalDesc
    ((connections.filter fun e => decide (3 ≤ e.2.plus + e.2.minus + e.2.both)).map
      mkStrongFormula)

theorem insertDesc_perm (x : StrongFormula) (l : List StrongFormula) :
    (insertDesc x l).Perm (x :: l) := by
  induction l with
  | nil => exact List.Perm.refl _
  | cons y rest ih =>
    unfold insertDesc
    split_ifs
    · exact ((ih.cons y).trans (List.Perm.swap x y rest))
    · exact List.Perm.refl _

theorem sortByTotalDesc_perm (l : List StrongFormula) : (sortByTotalDesc l).Perm l := by
  induction l with
  | nil => exact List.Perm.refl _
  | cons x rest ih =>
    unfold sortByTotalDesc
    exact (insertDesc_perm x (sortByTotalDesc rest)).trans (ih.cons x)

theorem insertDesc_sorted (x : StrongFormula) (l : List StrongFormula)
    (hl : l.Pairwise fun a b => b.total ≤ a.total) :
    (insertDesc x l).Pairwise fun a b => b.total ≤ a.total := by
  induction l with
  | nil => simp [insertDesc]
  | cons y rest ih =>
    rw [List.pairwise_cons] at hl
    unfold insertDesc
    split_ifs with hcmp
    · rw [List.pairwise_cons]
      refine ⟨fun z hz => ?_, ih hl.2⟩
      rcases List.mem_cons.mp ((insertDesc_perm x rest).mem_iff.mp hz) with rfl | hz2
      · omega
      · exact hl.1 z hz2
    · rw [List.pairwise_cons]
      refine ⟨fun z hz => ?_, List.pairwise_cons.mpr hl⟩
      rcases List.mem_cons.mp hz with rfl | hz2
      · omega
      · have := hl.1 z hz2
        omega

theorem sortByTotalDesc_sorted (l : List StrongFormula) :
    (sortByTotalDesc l).Pairwise fun a b => b.total ≤ a.total := by
  induction l with
  | nil => simp [sortByTotalDesc]
  | cons x rest ih => exact insertDesc_sorted x _ ih

theorem insertDesc_filter_total (x : StrongFormula) (l : List StrongFormula) (t : ℕ) :
    (insertDesc x l).filter (fun f => decide (f.total = t)) =
      (x :: l).filter (fun f => decide (f.total = t)) := by
  induction l with
  | nil => rfl
  | cons y rest ih =>
    unfold insertDesc
    split_ifs with hcmp
    · by_cases hy : y.total = t
      · have hx : ¬ x.total = t := by omega
        simp [List.filter_cons, ih, hy, hx]
      · simp [List.filter_cons, ih, hy]
    · rfl

theorem sortByTotalDesc_filter_total (l : List StrongFormula) (t : ℕ) :
    (sortByTotalDesc l).filter (fun f => decide (f.total = t)) =
      l.filter (fun f => decide (f.total = t)) := by
  induction l with
  | nil => rfl
  | cons x rest ih =>
    unfold sortByTotalDesc
    rw [insertDesc_filter_total, List.filter_cons, List.filter_cons, ih]

/-- C9: the strong-formula report contains exactly the connection-table
entries whose summed counts (positive + negative + neutral) reach 3, is
sorted by total count descending, and ties keep the order in which the
pairs stand in the connection table (the stable-sort behaviour of the
source's `sort(key=lambda x: -x['total'])` over the dict's insertion
order). -/
theorem strong_formulas_report (connections : List ((ℕ × ℕ) × ConnCounts)) :
    (strongFormulasOf connections).Perm
        ((connections.filter fun e => decide (3 ≤ e.2.plus + e.2.minus + e.2.both)).map
          mkStrongFormula) ∧
    ((strongFormulasOf connections).Pairwise fun a b => b.total ≤ a.total) ∧
    (∀ t, (strongFormulasOf connections).filter (fun f => decide (f.total = t)) =
      ((connections.filter fun e => decide (3 ≤ e.2.plus + e.2.minus + e.2.both)).map
        mkStrongFormula).filter (fun f => decide (f.total = t))) :=
  ⟨sortByTotalDesc_perm _, sortByTotalDesc_sorted _,
    fun t => sortByTotalDesc_filter_total _ t⟩

/-! ## House system calculator (`calculate_houses`) -/

/-- The error taxonomy the specification names for this layer. -/
inductive AstroError
  | InvalidLocation
  | InvalidCivilTime
deriving DecidableEq

/-- The result of the ephemeris provider's house routine (`swe.houses`):
the cusp tuple plus the ascendant and midheaven entries of `ascmc`. -/
structure HousesRaw where
  cusps : List ℚ
  asc : ℚ
  mc : ℚ

/-- Source dataclass `Houses`. -/
structure Houses where
  cusps : List ℚ
  asc : ℚ
  mc : ℚ
  house_system : String
deriving DecidableEq

/-- Source `calculate_houses`, parameterised by the ephemeris provider's
house routine.  The body contains no validation of `lat` or `lon` and no
error branch: it only unpacks the oracle's result and repackages it. -/
def calculate_houses (houses_oracle : ℚ → ℚ → ℚ → String → HousesRaw)
    (jd lat lon : ℚ) (house_system : String) : Except AstroError Houses :=
  let res := houses_oracle jd lat lon house_system
  .ok ⟨res.cusps, res.asc, res.mc, house_system⟩

/-- C6 (amended): the house system calculator performs no validation of
its location inputs — for every latitude and longitude, in or out of
`[-90, 90]`, it returns without error the ephemeris provider's house
routine result packaged into cusps plus ascendant and midheaven; no
`InvalidLocation` failure exists in this component. -/
theorem calculate_houses_no_validation (houses_oracle : ℚ → ℚ → ℚ → String → HousesRaw)
    (jd lat lon : ℚ) (hs : String) :
    calculate_houses houses_oracle jd lat lon hs =
      .ok ⟨(houses_oracle jd lat lon hs).cusps, (houses_oracle jd lat lon hs).asc,
        (houses_oracle jd lat lon hs).mc, hs⟩ ∧
    ∀ e : AstroError, calculate_houses houses_oracle jd lat lon hs ≠ .error e :=
  ⟨rfl, fun _ h => by simp [calculate_houses] at h⟩

/-- Counterexample to C6 as stated: with latitude 100 — outside
`[-90, 90]` — `calculate_houses` does not fail with `InvalidLocation`;
it returns the packaged oracle result. -/
theorem calculate_houses_accepts_lat_100 :
    (90 : ℚ) < 100 ∧
    calculate_houses
        (fun _ _ _ _ => ⟨[0, 30, 60, 90, 120, 150, 180, 210, 240, 270, 300, 330], 0, 270⟩)
        2451545 100 0 "K" =
      .ok ⟨[0, 30, 60, 90, 120, 150, 180, 210, 240, 270, 300, 330], 0, 270, "K"⟩ :=
  ⟨by norm_num, rfl⟩

/-! ## Time conversion (`datetime_to_julian`, the two `julian_to_datetime`) -/

/-- A civil date-time: the fields of Python `datetime` used here. -/
structure Civil where
  year : ℤ
  month : ℤ
  day : ℤ
  hour : ℤ
  minute : ℤ
  second : ℤ
deriving DecidableEq

/-- The days-in-month chain that both normalisation loops of
`datetime_to_julian` inline, with the source's leap rule. -/
def days_in_month (year month : ℤ) : ℤ :=
  if month = 1 ∨ month = 3 ∨ month = 5 ∨ month = 7 ∨ month = 8 ∨ month = 10 ∨ month = 12
  then 31
  else if month = 4 ∨ month = 6 ∨ month = 9 ∨ month = 11 then 30
  else if (year % 4 = 0 ∧ year % 100 ≠ 0) ∨ year % 400 = 0 then 29
  else 28

/-- The `while hour_decimal < 0` loop of `datetime_to_julian`: move one
day back per 24 borrowed hours, rolling month and year. -/
def decLoop : ℕ → ℤ → ℤ → ℤ → ℚ → ℤ × ℤ × ℤ × ℚ
  | 0, y, m, d, hd => (y, m, d, hd)
  | fuel + 1, y, m, d, hd =>
    if hd < 0 then
      if d - 1 < 1 then
        if m - 1 < 1 then decLoop fuel (y - 1) 12 (days_in_month (y - 1) 12) (hd + 24)
        else decLoop fuel y (m - 1) (days_in_month y (m - 1)) (hd + 24)
      else decLoop fuel y m (d - 1) (hd + 24)
    else (y, m, d, hd)

/-- The `while hour_decimal >= 24` loop of `datetime_to_julian`: move one
day forward per 24 carried hours, rolling month and year. -/
def incLoop : ℕ → ℤ → ℤ → ℤ → ℚ → ℤ × ℤ × ℤ × ℚ
  | 0, y, m, d, hd => (y, m, d, hd)
  | fuel + 1, y, m, d, hd =>
    if hd ≥ 24 then
      if d + 1 > days_in_month y m then
        if m + 1 > 12 then incLoop fuel (y + 1) 1 1 (hd - 24)
        else incLoop fuel y (m + 1) 1 (hd - 24)
      else incLoop fuel y m (d + 1) (hd - 24)
    else (y, m, d, hd)

/-- Model of the ephemeris library's `swe.julday` (Gregorian branch) in
exact rational arithmetic, following the Swiss Ephemeris reference
implementation. -/
def julday (year month day : ℤ) (hour : ℚ) : ℚ :=
  let u : ℚ := if month < 3 then (year : ℚ) - 1 else (year : ℚ)
  let u0 : ℚ := u + 4712
  let u1 : ℚ := if (month : ℚ) + 1 < 4 then (month : ℚ) + 1 + 12 else (month : ℚ) + 1
  let jd : ℚ :=
    ((⌊u0 * (1461 / 4)⌋ : ℤ) : ℚ) + ((⌊(153 / 5) * u1 + 1 / 1000000⌋ : ℤ) : ℚ) +
      (day : ℚ) + hour / 24 - 127 / 2
  let u2 : ℤ := ⌊|u| / 100⌋ - ⌊|u| / 400⌋
  let u2 : ℤ := if u < 0 then -u2 else u2
  let jd := jd - u2 + 2
  if u < 0 ∧ u / 100 = ((⌊u / 100⌋ : ℤ) : ℚ) ∧ u / 400 ≠ ((⌊u / 400⌋ : ℤ) : ℚ) then jd - 1
  else jd

/-- Model of the ephemeris library's `swe.revjul` (Gregorian branch):
Julian day to (year, month, day, hour-of-day). -/
def revjul (jd : ℚ) : ℤ × ℤ × ℤ × ℚ :=
  let v0 : ℚ := jd + 64165 / 2
  let v1 : ℚ := v0 + ((⌊v0 / 36525⌋ : ℤ) : ℚ) - ((⌊v0 / 146100⌋ : ℤ) : ℚ) - 38
  let v1 : ℚ := if jd ≥ 3661383 / 2 then v1 + 1 else v1
  let v2 : ℚ := v0 + ((⌊v1 / 36525⌋ : ℤ) : ℚ) - ((⌊v1 / 146100⌋ : ℤ) : ℚ) - 38
  let u2 : ℤ := ⌊v2 + 123⌋
  let u3 : ℤ := ⌊((u2 : ℚ) - 611 / 5) / (1461 / 4)⌋
  let u4 : ℤ := ⌊((u2 : ℚ) - ((⌊(1461 / 4 : ℚ) * u3⌋ : ℤ) : ℚ)) / (306001 / 10000)⌋
  let jmon : ℤ := if u4 - 1 > 12 then u4 - 13 else u4 - 1
  let jday : ℤ := u2 - ⌊(1461 / 4 : ℚ) * u3⌋ - ⌊(306001 / 10000 : ℚ) * u4⌋
  let jyear : ℤ := u3 + ⌊(((u4 : ℚ) - 2) / 12)⌋ - 4800
  let jut : ℚ := (jd - ((⌊jd + 1 / 2⌋ : ℤ) : ℚ) + 1 / 2) * 24
  (jyear, jmon, jday, jut)

/-- Source `datetime_to_julian`: convert civil time plus offset to UT,
normalise the hour across day/month/year boundaries with the two source
loops, then call the library's `julday`.  The loop fuel is computed from
the hour excess, so the guards always terminate the loops before the
fuel runs out. -/
def datetime_to_julian (dt : Civil) (timezone_hours : ℚ) : ℚ :=
  let hour_decimal : ℚ :=
    (dt.hour : ℚ) + (dt.minute : ℚ) / 60 + (dt.second : ℚ) / 3600 - timezone_hours
  let fuel : ℕ := ratCeilNat (|hour_decimal| / 24) + 1
  let r1 := decLoop fuel dt.year dt.month dt.day hour_decimal
  let r2 := incLoop fuel r1.1 r1.2.1 r1.2.2.1 r1.2.2.2
  julday r2.1 r2.2.1 r2.2.2.1 r2.2.2.2

/-- Python `datetime + timedelta(days=...)`, positive direction: roll the
date forward one month at a time. -/
def addDaysPos : ℕ → ℤ → ℤ → ℤ → ℤ × ℤ × ℤ
  | 0, y, m, d => (y, m, d)
  | fuel + 1, y, m, d =>
    if d > days_in_month y m then
      if m + 1 > 12 then addDaysPos fuel (y + 1) 1 (d - days_in_month y m)
      else addDaysPos fuel y (m + 1) (d - days_in_month y m)
    else (y, m, d)

/-- Python `datetime + timedelta(days=...)`, negative direction. -/
def addDaysNeg : ℕ → ℤ → ℤ → ℤ → ℤ × ℤ × ℤ
  | 0, y, m, d => (y, m, d)
  | fuel + 1, y, m, d =>
    if d < 1 then
      if m - 1 < 1 then addDaysNeg fuel (y - 1) 12 (d + days_in_month (y - 1) 12)
      else addDaysNeg fuel y (m - 1) (d + days_in_month y (m - 1))
    else (y, m, d)

/-- Model of `datetime + timedelta(hours=tz)` for offsets that are a
whole number of minutes (every call site uses such offsets): carry the
minutes into hours and days, then roll the date. -/
def addMinutes (dt : Civil) (mins : ℤ) : Civil :=
  let total : ℤ := dt.hour * 60 + dt.minute + mins
  let dayShift : ℤ := total / 1440
  let rem : ℤ := total % 1440
  let dd : ℤ := dt.day + dayShift
  let r :=
    if 0 ≤ dayShift then addDaysPos (dayShift.toNat + 2) dt.year dt.month dd
    else addDaysNeg ((-dayShift).toNat + 2) dt.year dt.month dd
  ⟨r.1, r.2.1, r.2.2, rem / 60, rem % 60, dt.second⟩

/-- Source `julian_to_datetime` at line 1885: the timezone-aware version.
At runtime this definition is shadowed by the later one-argument
redefinition (line 2192, `julian_to_datetime` below), which also makes
the two-argument call in `calculate_transits` (line 1850) a `TypeError`. -/
def julian_to_datetime_tz (jd : ℚ) (timezone_hours : ℚ) : Civil :=
  let r := revjul jd
  let hour : ℤ := pyInt r.2.2.2
  let minute_float : ℚ := (r.2.2.2 - (hour : ℚ)) * 60
  let minute : ℤ := pyInt minute_float
  let second : ℤ := pyInt ((minute_float - (minute : ℚ)) * 60)
  addMinutes ⟨r.1, r.2.1, r.2.2.1, hour, minute, second⟩ (pyInt (timezone_hours * 60))

/-- Source `julian_to_datetime` at line 2192: the re-definition that is
in effect at module scope.  It takes no offset and returns the UTC civil
time truncated to whole minutes. -/
def julian_to_datetime (jd : ℚ) : Civil :=
  let r := revjul jd
  let hours : ℤ := pyInt r.2.2.2
  let minutes : ℤ := pyInt ((r.2.2.2 - (hours : ℚ)) * 60)
  ⟨r.1, r.2.1, r.2.2.1, hours, minutes, 0⟩

/-- C1 (code bug, evaluated at the failing input): for civil time
2020-01-01 12:00 at UTC offset +3h, the round trip through the effective
`julian_to_datetime` (the second, shadowing definition, which ignores
the offset) returns 2020-01-01 09:00 — not the original civil time —
while the shadowed timezone-aware definition of line 1885 does reproduce
the original civil time to the minute. -/
theorem julian_roundtrip_shadowing_bug :
    julian_to_datetime (datetime_to_julian ⟨2020, 1, 1, 12, 0, 0⟩ 3) = ⟨2020, 1, 1, 9, 0, 0⟩ ∧
    julian_to_datetime (datetime_to_julian ⟨2020, 1, 1, 12, 0, 0⟩ 3) ≠ ⟨2020, 1, 1, 12, 0, 0⟩ ∧
    julian_to_datetime_tz (datetime_to_julian ⟨2020, 1, 1, 12, 0, 0⟩ 3) 3 =
      ⟨2020, 1, 1, 12, 0, 0⟩ := by
  refine ⟨?_, ?_, ?_⟩ <;> with_unfolding_all decide

/-! ## Transit timing search (`calculate_transits`)

The Swiss Ephemeris position call `swe.calc_ut(jd, body, flags)` is the
external oracle of the engine; it is modelled as an explicit parameter
`oracle : ℚ → ℕ → ℚ × ℚ` returning (ecliptic longitude, daily speed). -/

/-- Source constant `PLANETS_ALL`: the Swiss Ephemeris body ids (SUN=0 …
PLUTO=9, MEAN_NODE=10, MEAN_APOG=12) with names and symbols, in
insertion order. -/
def PLANETS_ALL : List (ℕ × String × String) :=
  [(0, "Солнце", "☉"), (1, "Луна", "☽"), (2, "Меркурий", "☿"), (3, "Венера", "♀"),
   (4, "Марс", "♂"), (5, "Юпитер", "♃"), (6, "Сатурн", "♄"), (7, "Уран", "♅"),
   (8, "Нептун", "♆"), (9, "Плутон", "♇"), (10, "Северный узел", "☊"), (12, "Лилит", "⚸")]

/-- Source constant `ASPECTS` (angle → name, symbol, natal orb), in
insertion order. -/
def ASPECTS : List (ℚ × String × String × ℚ) :=
  [(0, "Соединение", "☌", 8), (60, "Секстиль", "⚹", 6), (90, "Квадратура", "□", 8),
   (120, "Тригон", "△", 8), (180, "Оппозиция", "☍", 8)]

/-- Source `TRANSIT_ORBS.get(aspect_angle, 1.0)`. -/
def TRANSIT_ORBS_get (angle : ℚ) : ℚ :=
  ((([(0, 1), (60, 1), (90, 1), (120, 1), (180, 1)] : List (ℚ × ℚ)).lookup angle).getD 1)

/-- Python `sorted(set(l))`: the distinct elements in ascending order. -/
def py_sorted_set (l : List ℕ) : List ℕ := List.insertionSort (· ≤ ·) l.dedup

/-- The per-planet natal chart entry `calculate_transits` reads. -/
structure NatalPlanetData where
  longitude : ℚ
  house : ℕ
  rules : List ℕ
  symbol : String
  retro : Bool
deriving DecidableEq

/-- The natal-chart fields `calculate_transits` reads (the source's
`natal_data.get('cusps', …)` default never fires for charts produced by
the chart assemblers, which always store `cusps`). -/
structure NatalData where
  planets : List (String × NatalPlanetData)
  cusps : List ℚ
  birth_coords : ℚ × ℚ
deriving DecidableEq

/-- One recorded transit event: the dict appended at line 1852. -/
structure TransitEvent where
  transit_planet : String
  transit_symbol : String
  transit_house : ℕ
  transit_rules : List ℕ
  transit_retro : Bool
  natal_planet : String
  natal_symbol : String
  natal_house : ℕ
  natal_rules : List ℕ
  natal_retro : Bool
  aspect_name : String
  aspect_symbol : String
  aspect_angle : ℚ
  exact_datetime : Civil
  exact_jd : ℚ
  is_applying : Bool
deriving DecidableEq

/-- The body-speed-adaptive scan step (hours): Moon every 6 minutes,
Sun/Mercury/Venus/Mars every 15 minutes, the rest hourly. -/
def step_hours_for (transit_id : ℕ) : ℚ :=
  if transit_id = 1 then 1 / 10
  else if transit_id = 0 ∨ transit_id = 2 ∨ transit_id = 3 ∨ transit_id = 4 then 1 / 4
  else 1

/-- The deviation from the exact aspect sampled by `calculate_transits`:
fold the separation into [0, 180], then
`min(|diff - angle|, |360 - diff - angle|)`. -/
def transitOrb (lon natal_lon angle : ℚ) : ℚ :=
  let diff0 := |lon - natal_lon|
  let diff := if diff0 > 180 then 360 - diff0 else diff0
  min |diff - angle| |360 - diff - angle|

/-- The (≤ 20)-iteration bisection refinement between the bracketing
samples, keeping the sub-bracket whose left endpoint has the smaller
orb and stopping once the bracket is below one second. -/
def transitBisect (oracle : ℚ → ℕ → ℚ × ℚ) (tid : ℕ) (natal_lon angle : ℚ) :
    ℕ → ℚ → ℚ → ℚ × ℚ
  | 0, l, r => (l, r)
  | n + 1, l, r =>
    let mid := (l + r) / 2
    let mid_orb := transitOrb (oracle mid tid).1 natal_lon angle
    let left_orb := transitOrb (oracle l tid).1 natal_lon angle
    let p := if left_orb < mid_orb then (l, mid) else (mid, r)
    if |p.2 - p.1| < 1 / 86400 then p
    else transitBisect oracle tid natal_lon angle n p.1 p.2

/-- The event construction at the refined time (lines 1819-1869): the
transiting body's house is read off the **natal** cusps, and its formula
is the sorted union of the same-named natal planet's house and ruled
houses when that planet is present in the natal chart (otherwise it is
recomputed from the natal cusps — still never from transit-time cusps).
`exact_datetime` models the call signature `julian_to_datetime(jd_exact,
timezone_hours)` of line 1850, i.e. the line-1885 definition (at runtime
that name resolves to the shadowing line-2192 redefinition and raises
`TypeError`; see C1). -/
def mkTransitEvent (oracle : ℚ → ℕ → ℚ × ℚ) (natal_data : NatalData)
    (timezone_hours : ℚ) (tid : ℕ) (tname tsym nname : String) (nd : NatalPlanetData)
    (angle : ℚ) (aname asym : String) (jd_exact : ℚ) : TransitEvent :=
  let res := oracle jd_exact tid
  let is_retro := res.2 < 0
  let transit_house := get_planet_house res.1 natal_data.cusps
  let transit_rules :=
    match natal_data.planets.lookup tname with
    | some npd => py_sorted_set (npd.house :: npd.rules)
    | none => (get_planet_ruled_houses tname natal_data.cusps is_retro []).getD []
  { transit_planet := tname, transit_symbol := tsym,
    transit_house := transit_house, transit_rules := transit_rules,
    transit_retro := is_retro,
    natal_planet := nname, natal_symbol := nd.symbol,
    natal_house := nd.house, natal_rules := nd.rules, natal_retro := nd.retro,
    aspect_name := aname, aspect_symbol := asym, aspect_angle := angle,
    exact_datetime := julian_to_datetime_tz jd_exact timezone_hours,
    exact_jd := jd_exact, is_applying := false }

/-- The body of one detection: when the direction flipped from
approaching to receding inside the transit tolerance, bisection-refine
the bracket `[jd - step, jd]` and append the event. -/
def scanStep (oracle : ℚ → ℕ → ℚ × ℚ) (natal_data : NatalData) (timezone_hours : ℚ)
    (tid : ℕ) (tname tsym nname : String) (nd : NatalPlanetData)
    (angle : ℚ) (aname asym : String) (max_orb step : ℚ)
    (jd p : ℚ) (prevDir : Option Bool) (acc : List TransitEvent) : List TransitEvent :=
  if prevDir = some true ∧ decide (transitOrb (oracle jd tid).1 nd.longitude angle < p) = false ∧
      transitOrb (oracle jd tid).1 nd.longitude angle < max_orb then
    acc ++ [mkTransitEvent oracle natal_data timezone_hours tid tname tsym nname nd
      angle aname asym
      (((transitBisect oracle tid nd.longitude angle 20 (jd - step) jd).1 +
        (transitBisect oracle tid nd.longitude angle 20 (jd - step) jd).2) / 2)]
  else acc

/-- The `while jd < jd_end` scan of one (transiting body, natal planet,
aspect) triple, carrying `prev_orb` and `prev_direction` exactly as the
source does. -/
def scanLoop (oracle : ℚ → ℕ → ℚ × ℚ) (natal_data : NatalData) (timezone_hours : ℚ)
    (tid : ℕ) (tname tsym nname : String) (nd : NatalPlanetData)
    (angle : ℚ) (aname asym : String) (max_orb step jd_end : ℚ) :
    ℕ → ℚ → Option ℚ → Option Bool → List TransitEvent → List TransitEvent
  | 0, _, _, _, acc => acc
  | fuel + 1, jd, prevOrb, prevDir, acc =>
    if jd < jd_end then
      match prevOrb with
      | some p =>
        scanLoop oracle natal_data timezone_hours tid tname tsym nname nd angle aname asym
          max_orb step jd_end fuel (jd + step)
          (some (transitOrb (oracle jd tid).1 nd.longitude angle))
          (some (decide (transitOrb (oracle jd tid).1 nd.longitude angle < p)))
          (scanStep oracle natal_data timezone_hours tid tname tsym nname nd angle aname asym
            max_orb step jd p prevDir acc)
      | none =>
        scanLoop oracle natal_data timezone_hours tid tname tsym nname nd angle aname asym
          max_orb step jd_end fuel (jd + step)
          (some (transitOrb (oracle jd tid).1 nd.longitude angle)) none acc
    else acc

/-- Stable ascending insertion by `exact_jd` (the behaviour of the
source's final `transits.sort(key=lambda x: x['exact_jd'])`). -/
def insertByJd (x : TransitEvent) : List TransitEvent → List TransitEvent
  | [] => [x]
  | y :: rest => if y.exact_jd < x.exact_jd then y :: insertByJd x rest else x :: y :: rest

/-- Stable sort of the merged event list by exact time ascending. -/
def sortByExactJd : List TransitEvent → List TransitEvent
  | [] => []
  | x :: rest => insertByJd x (sortByExactJd rest)

/-- `jd_start` of `calculate_transits`: midnight of the start date at
the display timezone, converted to a Julian day. -/
def transit_jd_start (start_date : ℤ × ℤ × ℤ) (timezone_hours : ℚ) : ℚ :=
  datetime_to_julian ⟨start_date.1, start_date.2.1, start_date.2.2, 0, 0, 0⟩ timezone_hours

/-- One full scan of the period for a (transiting body, natal planet,
aspect) triple: the innermost loop body of `calculate_transits`, with
the transit orb from `TRANSIT_ORBS`, the per-body step, and enough fuel
for every `jd < jd_end` iteration (the loop advances by `step` each
pass, so `⌈(jd_end - jd_start)/step⌉ + 1` guard checks suffice). -/
def transitScanTriple (oracle : ℚ → ℕ → ℚ × ℚ) (natal_data : NatalData)
    (timezone_hours jd_start jd_end : ℚ) (tp : ℕ × String × String)
    (np : String × NatalPlanetData) (asp : ℚ × String × String × ℚ)
    (acc : List TransitEvent) : List TransitEvent :=
  scanLoop oracle natal_data timezone_hours tp.1 tp.2.1 tp.2.2 np.1 np.2
    asp.1 asp.2.1 asp.2.2.1 (TRANSIT_ORBS_get asp.1)
    (step_hours_for tp.1 / 24) jd_end
    (ratCeilNat ((jd_end - jd_start) / (step_hours_for tp.1 / 24)) + 1)
    jd_start none none acc

/-- Source `calculate_transits`, parameterised by the position oracle.
The `residence_*` and `transit_cusps_tz` parameters are accepted and, as
in the source body, never used after their defaulting — no transit-time
house system is computed anywhere in the function. -/
def calculate_transits (oracle : ℚ → ℕ → ℚ × ℚ) (natal_data : NatalData)
    (start_date : ℤ × ℤ × ℤ) (days : ℕ) (_residence_lat _residence_lon : Option ℚ)
    (timezone_hours : ℚ) (_transit_cusps_tz : ℚ) : List TransitEvent :=
  sortByExactJd
    (PLANETS_ALL.foldl
      (fun acc1 tp =>
        natal_data.planets.foldl
          (fun acc2 np =>
            ASPECTS.foldl
              (fun acc3 asp =>
                transitScanTriple oracle natal_data timezone_hours
                  (transit_jd_start start_date timezone_hours)
                  (transit_jd_start start_date timezone_hours + (days : ℚ)) tp np asp acc3)
              acc2)
          acc1)
      [])

theorem insertByJd_perm (x : TransitEvent) (l : List TransitEvent) :
    (insertByJd x l).Perm (x :: l) := by
  induction l with
  | nil => exact List.Perm.refl _
  | cons y rest ih =>
    unfold insertByJd
    split_ifs
    · exact ((ih.cons y).trans (List.Perm.swap x y rest))
    · exact List.Perm.refl _

theorem sortByExactJd_perm (l : List TransitEvent) : (sortByExactJd l).Perm l := by
  induction l with
  | nil => exact List.Perm.refl _
  | cons x rest ih =>
    rw [sortByExactJd]
    exact (insertByJd_perm x (sortByExactJd rest)).trans (ih.cons x)

theorem mem_sortByExactJd (e : TransitEvent) (l : List TransitEvent) :
    e ∈ sortByExactJd l ↔ e ∈ l :=
  (sortByExactJd_perm l).mem_iff

/-- Accumulator-monotone folds only grow the accumulated list. -/
theorem foldl_mono_mem {α β : Type} (f : List β → α → List β)
    (hf : ∀ acc x, acc ⊆ f acc x) :
    ∀ (l : List α) (acc : List β), acc ⊆ l.foldl f acc := by
  intro l
  induction l with
  | nil => intro acc; exact List.Subset.refl _
  | cons x xs ih =>
    intro acc
    rw [List.foldl_cons]
    exact (hf acc x).trans (ih (f acc x))

theorem scanStep_subset (oracle : ℚ → ℕ → ℚ × ℚ) (natal_data : NatalData)
    (timezone_hours : ℚ) (tid : ℕ) (tname tsym nname : String) (nd : NatalPlanetData)
    (angle : ℚ) (aname asym : String) (max_orb step jd p : ℚ) (prevDir : Option Bool)
    (acc : List TransitEvent) :
    acc ⊆ scanStep oracle natal_data timezone_hours tid tname tsym nname nd angle aname asym
      max_orb step jd p prevDir acc := by
  rw [scanStep]
  split
  · exact List.subset_append_left _ _
  · exact List.Subset.refl _

theorem scanLoop_subset (oracle : ℚ → ℕ → ℚ × ℚ) (natal_data : NatalData)
    (timezone_hours : ℚ) (tid : ℕ) (tname tsym nname : String) (nd : NatalPlanetData)
    (angle : ℚ) (aname asym : String) (max_orb step jd_end : ℚ) :
    ∀ (fuel : ℕ) (jd : ℚ) (po : Option ℚ) (pd : Option Bool) (acc : List TransitEvent),
      acc ⊆ scanLoop oracle natal_data timezone_hours tid tname tsym nname nd angle aname asym
        max_orb step jd_end fuel jd po pd acc := by
  intro fuel
  induction fuel with
  | zero =>
    intro jd po pd acc
    rw [scanLoop]
    exact List.Subset.refl _
  | succ n ih =>
    intro jd po pd acc
    cases po with
    | some p =>
      rw [scanLoop]
      by_cases hg : jd < jd_end
      · rw [if_pos hg]
        exact (scanStep_subset oracle natal_data timezone_hours tid tname tsym nname nd
          angle aname asym max_orb step jd p pd acc).trans (ih _ _ _ _)
      · rw [if_neg hg]
        exact List.Subset.refl _
    | none =>
      rw [scanLoop]
      by_cases hg : jd < jd_end
      · rw [if_pos hg]
        exact ih _ _ _ _
      · rw [if_neg hg]
        exact List.Subset.refl _

theorem transitScanTriple_subset (oracle : ℚ → ℕ → ℚ × ℚ) (natal_data : NatalData)
    (timezone_hours jd_start jd_end : ℚ) (tp : ℕ × String × String)
    (np : String × NatalPlanetData) (asp : ℚ × String × String × ℚ)
    (acc : List TransitEvent) :
    acc ⊆ transitScanTriple oracle natal_data timezone_hours jd_start jd_end tp np asp acc :=
  scanLoop_subset oracle natal_data timezone_hours tp.1 tp.2.1 tp.2.2 np.1 np.2
    asp.1 asp.2.1 asp.2.2.1 (TRANSIT_ORBS_get asp.1) (step_hours_for tp.1 / 24) jd_end _ _ _ _ _

/-- The natal-inheritance property C2 asserts of every recorded event:
the transiting body's house is read off the natal cusps at the event's
exact time, and — whenever the natal chart holds a body of the same
name — the transit formula is the sorted union of that natal body's
house and ruled houses. -/
def TransitEventProp (oracle : ℚ → ℕ → ℚ × ℚ) (natal_data : NatalData)
    (ev : TransitEvent) : Prop :=
  (∃ tid tsym, (tid, ev.transit_planet, tsym) ∈ PLANETS_ALL ∧
    ev.transit_house = get_planet_house (oracle ev.exact_jd tid).1 natal_data.cusps) ∧
  ∀ npd, natal_data.planets.lookup ev.transit_planet = some npd →
    ev.transit_rules = py_sorted_set (npd.house :: npd.rules)

theorem mkTransitEvent_prop (oracle : ℚ → ℕ → ℚ × ℚ) (natal_data : NatalData)
    (timezone_hours : ℚ) (tid : ℕ) (tname tsym nname : String) (nd : NatalPlanetData)
    (angle : ℚ) (aname asym : String) (jd : ℚ)
    (hmem : (tid, tname, tsym) ∈ PLANETS_ALL) :
    TransitEventProp oracle natal_data
      (mkTransitEvent oracle natal_data timezone_hours tid tname tsym nname nd
        angle aname asym jd) := by
  refine ⟨⟨tid, tsym, hmem, rfl⟩, ?_⟩
  intro npd hnp
  have hplanet : (mkTransitEvent oracle natal_data timezone_hours tid tname tsym nname nd
      angle aname asym jd).transit_planet = tname := rfl
  rw [hplanet] at hnp
  simp only [mkTransitEvent]
  rw [hnp]

theorem scanStep_sound (oracle : ℚ → ℕ → ℚ × ℚ) (natal_data : NatalData)
    (timezone_hours : ℚ) (tid : ℕ) (tname tsym nname : String) (nd : NatalPlanetData)
    (angle : ℚ) (aname asym : String) (max_orb step jd p : ℚ) (pd : Option Bool)
    (acc : List TransitEvent)
    (hmem : (tid, tname, tsym) ∈ PLANETS_ALL)
    (hacc : ∀ e ∈ acc, TransitEventProp oracle natal_data e) :
    ∀ e ∈ scanStep oracle natal_data timezone_hours tid tname tsym nname nd angle aname asym
        max_orb step jd p pd acc, TransitEventProp oracle natal_data e := by
  intro e he
  rw [scanStep] at he
  split at he
  · rcases List.mem_append.mp he with h | h
    · exact hacc e h
    · have hx := List.mem_singleton.mp h
      subst hx
      exact mkTransitEvent_prop oracle natal_data timezone_hours tid tname tsym nname nd
        angle aname asym _ hmem
  · exact hacc e he

theorem scanLoop_sound (oracle : ℚ → ℕ → ℚ × ℚ) (natal_data : NatalData)
    (timezone_hours : ℚ) (tid : ℕ) (tname tsym nname : String) (nd : NatalPlanetData)
    (angle : ℚ) (aname asym : String) (max_orb step jd_end : ℚ)
    (hmem : (tid, tname, tsym) ∈ PLANETS_ALL) :
    ∀ (fuel : ℕ) (jd : ℚ) (po : Option ℚ) (pd : Option Bool) (acc : List TransitEvent),
      (∀ e ∈ acc, TransitEventProp oracle natal_data e) →
      ∀ e ∈ scanLoop oracle natal_data timezone_hours tid tname tsym nname nd angle aname asym
          max_orb step jd_end fuel jd po pd acc, TransitEventProp oracle natal_data e := by
  intro fuel
  induction fuel with
  | zero =>
    intro jd po pd acc hacc e he
    rw [scanLoop] at he
    exact hacc e he
  | succ n ih =>
    intro jd po pd acc hacc e he
    cases po with
    | some p =>
      rw [scanLoop] at he
      by_cases hg : jd < jd_end
      · rw [if_pos hg] at he
        exact ih _ _ _ _
          (scanStep_sound oracle natal_data timezone_hours tid tname tsym nname nd
            angle aname asym max_orb step jd p pd acc hmem hacc) e he
      · rw [if_neg hg] at he
        exact hacc e he
    | none =>
      rw [scanLoop] at he
      by_cases hg : jd < jd_end
      · rw [if_pos hg] at he
        exact ih _ _ _ _ hacc e he
      · rw [if_neg hg] at he
        exact hacc e he

/-- Fold soundness: a property of list members is preserved by a fold
whose every step preserves it. -/
theorem foldl_sound {α β : Type} (P : β → Prop) (f : List β → α → List β) :
    ∀ (l : List α), (∀ acc x, x ∈ l → (∀ e ∈ acc, P e) → ∀ e ∈ f acc x, P e) →
      ∀ acc, (∀ e ∈ acc, P e) → ∀ e ∈ l.foldl f acc, P e := by
  intro l
  induction l with
  | nil =>
    intro _ acc hacc e he
    rw [List.foldl_nil] at he
    exact hacc e he
  | cons x xs ih =>
    intro hstep acc hacc e he
    rw [List.foldl_cons] at he
    exact ih (fun acc2 y hy => hstep acc2 y (List.mem_cons_of_mem x hy)) (f acc x)
      (hstep acc x (List.mem_cons_self x xs) hacc) e he

/-- C2: for every transit event recorded by the transit timing search,
the transiting body's house is computed from the **natal** cusps (the
house scan `get_planet_house` applied to the body's longitude at the
event's exact time and `natal_data.cusps` — never to a transit-time
house system, which `calculate_transits` does not compute), and whenever
the natal chart contains a body of the same name, the transiting body's
formula equals the sorted union of that natal body's house and its ruled
houses — inherited from the natal placement, not recomputed from
transit-time cusps. -/
theorem calculate_transits_natal_inheritance (oracle : ℚ → ℕ → ℚ × ℚ)
    (natal_data : NatalData) (start_date : ℤ × ℤ × ℤ) (days : ℕ)
    (residence_lat residence_lon : Option ℚ) (timezone_hours transit_cusps_tz : ℚ)
    (ev : TransitEvent)
    (hev : ev ∈ calculate_transits oracle natal_data start_date days residence_lat
      residence_lon timezone_hours transit_cusps_tz) :
    (∃ tid tsym, (tid, ev.transit_planet, tsym) ∈ PLANETS_ALL ∧
      ev.transit_house = get_planet_house (oracle ev.exact_jd tid).1 natal_data.cusps) ∧
    ∀ npd, natal_data.planets.lookup ev.transit_planet = some npd →
      ev.transit_rules = py_sorted_set (npd.house :: npd.rules) := by
  rw [calculate_transits, mem_sortByExactJd] at hev
  refine foldl_sound (TransitEventProp oracle natal_data) _ PLANETS_ALL ?_ []
    (fun e he => absurd he (List.not_mem_nil e)) ev hev
  intro acc1 tp htp hacc1
  refine foldl_sound (TransitEventProp oracle natal_data) _ natal_data.planets ?_ acc1 hacc1
  intro acc2 np _ hacc2
  refine foldl_sound (TransitEventProp oracle natal_data) _ ASPECTS ?_ acc2 hacc2
  intro acc3 asp _ hacc3
  exact scanLoop_sound oracle natal_data timezone_hours tp.1 tp.2.1 tp.2.2 np.1 np.2
    asp.1 asp.2.1 asp.2.2.1 (TRANSIT_ORBS_get asp.1) (step_hours_for tp.1 / 24) _ htp
    _ _ _ _ _ hacc3

/-- `scanLoop` with the running Julian day expressed through the
iteration index (`jd = jd_start + k·step`, which in exact rational
arithmetic is what the source's `jd += step_jd` accumulates to). Proof
infrastructure only: keeping the day shallow lets concrete runs be
evaluated by the kernel; `scanLoop_eq_idx` shows the two loops agree. -/
def scanLoopIdx (oracle : ℚ → ℕ → ℚ × ℚ) (natal_data : NatalData) (timezone_hours : ℚ)
    (tid : ℕ) (tname tsym nname : String) (nd : NatalPlanetData)
    (angle : ℚ) (aname asym : String) (max_orb step jd_end jd_start : ℚ) :
    ℕ → ℕ → Option ℚ → Option Bool → List TransitEvent → List TransitEvent
  | 0, _, _, _, acc => acc
  | fuel + 1, k, prevOrb, prevDir, acc =>
    if jd_start + (k : ℚ) * step < jd_end then
      match prevOrb with
      | some p =>
        scanLoopIdx oracle natal_data timezone_hours tid tname tsym nname nd angle aname asym
          max_orb step jd_end jd_start fuel (k + 1)
          (some (transitOrb (oracle (jd_start + (k : ℚ) * step) tid).1 nd.longitude angle))
          (some (decide (transitOrb (oracle (jd_start + (k : ℚ) * step) tid).1
            nd.longitude angle < p)))
          (scanStep oracle natal_data timezone_hours tid tname tsym nname nd angle aname asym
            max_orb step (jd_start + (k : ℚ) * step) p prevDir acc)
      | none =>
        scanLoopIdx oracle natal_data timezone_hours tid tname tsym nname nd angle aname asym
          max_orb step jd_end jd_start fuel (k + 1)
          (some (transitOrb (oracle (jd_start + (k : ℚ) * step) tid).1 nd.longitude angle))
          none acc
    else acc

theorem scanLoop_eq_idx (oracle : ℚ → ℕ → ℚ × ℚ) (natal_data : NatalData)
    (timezone_hours : ℚ) (tid : ℕ) (tname tsym nname : String) (nd : NatalPlanetData)
    (angle : ℚ) (aname asym : String) (max_orb step jd_end jd_start : ℚ) :
    ∀ (fuel k : ℕ) (po : Option ℚ) (pd : Option Bool) (acc : List TransitEvent),
      scanLoop oracle natal_data timezone_hours tid tname tsym nname nd angle aname asym
        max_orb step jd_end fuel (jd_start + (k : ℚ) * step) po pd acc =
      scanLoopIdx oracle natal_data timezone_hours tid tname tsym nname nd angle aname asym
        max_orb step jd_end jd_start fuel k po pd acc := by
  intro fuel
  induction fuel with
  | zero =>
    intro k po pd acc
    rw [scanLoop, scanLoopIdx]
  | succ n ih =>
    intro k po pd acc
    have hj : jd_start + (k : ℚ) * step + step = jd_start + ((k + 1 : ℕ) : ℚ) * step := by
      push_cast
      ring
    cases po with
    | some p =>
      rw [scanLoop, scanLoopIdx]
      by_cases hg : jd_start + (k : ℚ) * step < jd_end
      · rw [if_pos hg, if_pos hg, hj]
        exact ih (k + 1) _ _ _
      · rw [if_neg hg, if_neg hg]
    | none =>
      rw [scanLoop, scanLoopIdx]
      by_cases hg : jd_start + (k : ℚ) * step < jd_end
      · rw [if_pos hg, if_pos hg, hj]
        exact ih (k + 1) _ _ _
      · rw [if_neg hg, if_neg hg]

theorem transitScanTriple_eq_idx (oracle : ℚ → ℕ → ℚ × ℚ) (natal_data : NatalData)
    (timezone_hours jd_start jd_end : ℚ) (tp : ℕ × String × String)
    (np : String × NatalPlanetData) (asp : ℚ × String × String × ℚ)
    (acc : List TransitEvent) :
    transitScanTriple oracle natal_data timezone_hours jd_start jd_end tp np asp acc =
    scanLoopIdx oracle natal_data timezone_hours tp.1 tp.2.1 tp.2.2 np.1 np.2
      asp.1 asp.2.1 asp.2.2.1 (TRANSIT_ORBS_get asp.1) (step_hours_for tp.1 / 24)
      jd_end jd_start
      (ratCeilNat ((jd_end - jd_start) / (step_hours_for tp.1 / 24)) + 1)
      0 none none acc := by
  rw [transitScanTriple]
  have h0 : jd_start = jd_start + ((0 : ℕ) : ℚ) * (step_hours_for tp.1 / 24) := by
    push_cast
    ring
  nth_rewrite 2 [h0]
  exact scanLoop_eq_idx oracle natal_data timezone_hours tp.1 tp.2.1 tp.2.2 np.1 np.2
    asp.1 asp.2.1 asp.2.2.1 (TRANSIT_ORBS_get asp.1) (step_hours_for tp.1 / 24)
    jd_end jd_start _ 0 none none acc

/-! ### A concrete transit run for the C2 witness -/

/-- Test ephemeris: the Sun moves linearly at 2°/day, crossing the natal
Sun's longitude 100° half a day after JD 2451544.5 (2000-01-01 00:00
UT); every other body sits at 200°, so its orb never flips from
approaching to receding and nothing else is detected. -/
def c2Oracle : ℚ → ℕ → ℚ × ℚ :=
  fun jd id => if id = 0 then (99 + (jd - 4903089 / 2) * 2, 2) else (200, 0)

/-- The natal Sun entry of the test chart: house 10, ruling house 5. -/
def c2SunNatal : NatalPlanetData := ⟨100, 10, [5], "☉", false⟩

/-- A one-planet natal chart over equal 30° houses. -/
def c2Natal : NatalData :=
  ⟨[("Солнце", c2SunNatal)],
   [0, 30, 60, 90, 120, 150, 180, 210, 240, 270, 300, 330], (0, 0)⟩

def c2jdS : ℚ := transit_jd_start (2000, 1, 1) 0

def c2jdE : ℚ := c2jdS + ((1 : ℕ) : ℚ)

/-- The transiting-Sun / natal-Sun / conjunction scan of the test run. -/
def c2SunConjScan : List TransitEvent :=
  transitScanTriple c2Oracle c2Natal 0 c2jdS c2jdE (0, "Солнце", "☉")
    ("Солнце", c2SunNatal) (0, "Соединение", "☌", 8) []

/-- The same scan in index form with its fuel evaluated (97 guard
checks cover the one-day Sun scan at 15-minute steps), used for kernel
evaluation. -/
def c2ScanIdx : List TransitEvent :=
  scanLoopIdx c2Oracle c2Natal 0 0 "Солнце" "☉" "Солнце" c2SunNatal 0 "Соединение" "☌"
    (TRANSIT_ORBS_get 0) (step_hours_for 0 / 24) c2jdE c2jdS 97 0 none none []

/-- The single event the test run records (its head; the scan is shown
below to produce exactly one event). -/
def c2Ev : TransitEvent := c2ScanIdx.headD
  ⟨"", "", 0, [], false, "", "", 0, [], false, "", "", 0, ⟨0, 0, 0, 0, 0, 0⟩, 0, false⟩

set_option maxRecDepth 40000 in
theorem c2ScanIdx_ne_nil : c2ScanIdx ≠ [] := by
  with_unfolding_all decide

theorem c2Ev_mem_idx : c2Ev ∈ c2ScanIdx := by
  unfold c2Ev
  cases hc : c2ScanIdx with
  | nil => exact absurd hc c2ScanIdx_ne_nil
  | cons a l =>
    rw [List.headD_cons]
    exact List.mem_cons_self a l

theorem c2Ev_mem_scan : c2Ev ∈ c2SunConjScan := by
  have hF : ratCeilNat ((c2jdE - c2jdS) / (step_hours_for ((0 : ℕ), "Солнце", "☉").1 / 24))
      + 1 = 97 := by
    with_unfolding_all decide
  rw [c2SunConjScan, transitScanTriple_eq_idx, hF]
  exact c2Ev_mem_idx

theorem c2Ev_mem : c2Ev ∈ calculate_transits c2Oracle c2Natal (2000, 1, 1) 1 none none 0 7 := by
  have h2 : c2Ev ∈ c2SunConjScan := c2Ev_mem_scan
  have hsub3 : ∀ (tp : ℕ × String × String) (np : String × NatalPlanetData)
      (acc : List TransitEvent),
      acc ⊆ ASPECTS.foldl
        (fun acc3 asp => transitScanTriple c2Oracle c2Natal 0 c2jdS c2jdE tp np asp acc3)
        acc :=
    fun tp np acc => foldl_mono_mem _
      (fun a x => transitScanTriple_subset c2Oracle c2Natal 0 c2jdS c2jdE tp np x a) _ _
  have hsub2 : ∀ (tp : ℕ × String × String) (acc : List TransitEvent),
      acc ⊆ c2Natal.planets.foldl
        (fun acc2 np => ASPECTS.foldl
          (fun acc3 asp => transitScanTriple c2Oracle c2Natal 0 c2jdS c2jdE tp np asp acc3)
          acc2) acc :=
    fun tp acc => foldl_mono_mem _ (fun a x => hsub3 tp x a) _ _
  have h3 : c2Ev ∈ ASPECTS.foldl
      (fun acc3 asp => transitScanTriple c2Oracle c2Natal 0 c2jdS c2jdE
        (0, "Солнце", "☉") ("Солнце", c2SunNatal) asp acc3) [] := by
    rw [show ASPECTS = (0, "Соединение", "☌", 8) ::
      [(60, "Секстиль", "⚹", 6), (90, "Квадратура", "□", 8),
       (120, "Тригон", "△", 8), (180, "Оппозиция", "☍", 8)] from rfl,
      List.foldl_cons]
    exact foldl_mono_mem _
      (fun a x => transitScanTriple_subset c2Oracle c2Natal 0 c2jdS c2jdE _ _ x a) _ _ h2
  have h4 : c2Ev ∈ c2Natal.planets.foldl
      (fun acc2 np => ASPECTS.foldl
        (fun acc3 asp => transitScanTriple c2Oracle c2Natal 0 c2jdS c2jdE
          (0, "Солнце", "☉") np asp acc3) acc2) [] := by
    rw [show c2Natal.planets = [("Солнце", c2SunNatal)] from rfl,
      List.foldl_cons, List.foldl_nil]
    exact h3
  have h5 : c2Ev ∈ PLANETS_ALL.foldl
      (fun acc1 tp => c2Natal.planets.foldl
        (fun acc2 np => ASPECTS.foldl
          (fun acc3 asp => transitScanTriple c2Oracle c2Natal 0 c2jdS c2jdE tp np asp acc3)
          acc2) acc1) [] := by
    rw [show PLANETS_ALL = ((0 : ℕ), "Солнце", "☉") ::
      [((1 : ℕ), "Луна", "☽"), (2, "Меркурий", "☿"), (3, "Венера", "♀"), (4, "Марс", "♂"),
       (5, "Юпитер", "♃"), (6, "Сатурн", "♄"), (7, "Уран", "♅"), (8, "Нептун", "♆"),
       (9, "Плутон", "♇"), (10, "Северный узел", "☊"), (12, "Лилит", "⚸")] from rfl,
      List.foldl_cons]
    exact foldl_mono_mem _ (fun a x => hsub2 x a) _ _ h4
  exact (mem_sortByExactJd c2Ev _).mpr h5

/-- C2 witness: the natal-inheritance property instantiated at the
concrete test run, whose recorded Sun-conjunction event is produced and
checked by evaluation. -/
theorem calculate_transits_natal_inheritance_witness :
    (∃ tid tsym, (tid, c2Ev.transit_planet, tsym) ∈ PLANETS_ALL ∧
      c2Ev.transit_house = get_planet_house (c2Oracle c2Ev.exact_jd tid).1 c2Natal.cusps) ∧
    ∀ npd, c2Natal.planets.lookup c2Ev.transit_planet = some npd →
      c2Ev.transit_rules = py_sorted_set (npd.house :: npd.rules) :=
  calculate_transits_natal_inheritance c2Oracle c2Natal (2000, 1, 1) 1 none none 0 7
    c2Ev c2Ev_mem

end AstroEngine
